import Mathlib

/-!
# ArchSet backend — shallow embedding of the synchronization engine

This file embeds, in Lean 4, the parts of the ArchSet note-taking backend
that the specification's claims are about:

* `SyncService.sync_notes` and `SyncService.sync_folders`
  (`backend/app/services/sync_service.py`),
* the folder delete cascade `delete_folder` (`backend/app/routers/folders.py`),
* the request schemas `NoteSyncItem` / `FolderSyncItem` / `SyncRequest`
  (`backend/app/schemas/note.py`, `backend/app/schemas/folder.py`) together
  with the all-or-nothing request-body validation the `/sync` endpoint
  performs before the service is invoked (`backend/app/routers/sync.py`).

Modelling conventions:

* timestamps (`datetime`) are `Nat` — only their total order is used;
* the database tables `notes` and `folders` are lists of records; the
  `id` column is the primary key, so a table never holds two rows with the
  same id (`scalar_one_or_none` would otherwise raise).  Point lookups are
  `List.find?` on `(id, user_id)` exactly as the SQLAlchemy `select ...
  where` does, and in-place ORM mutation of the found row is modelled by
  mapping the update over the rows matching the same `(id, user_id)` key;
* the file system touched by `os.path.exists` / `os.remove` is a list of
  existing paths; `os.remove` on an existing path is modelled as
  succeeding (the `except OSError: pass` branch is not taken);
* one call of a service method is one transaction: the whole pass is a
  single Lean function from state to state, which commits atomically.
-/

abbrev Time := Nat

/-- A row of the `notes` table (`backend/app/models/note.py`).  `synced_at`
is nullable and set by the server only. -/
structure NoteRec where
  id : String
  user_id : String
  folder_id : Option String
  title : String
  content : String
  audio_path : Option String
  date : Time
  created_at : Time
  updated_at : Time
  synced_at : Option Time
  is_deleted : Bool
deriving Repr, DecidableEq

/-- A row of the `folders` table (`backend/app/models/folder.py`).  Note
that the Folder model has *no* `synced_at` column. -/
structure FolderRec where
  id : String
  user_id : String
  name : String
  color : String
  created_at : Time
  updated_at : Time
  is_deleted : Bool
deriving Repr, DecidableEq

/-- The server state a sync call reads and writes: the two tables plus the
set of audio files present on disk. -/
structure DB where
  notes : List NoteRec
  folders : List FolderRec
  files : List String
deriving Repr, DecidableEq

/-- `NoteSyncItem` (`backend/app/schemas/note.py`): one client batch entry
for a note, already validated. -/
structure NoteSyncItem where
  id : String
  title : String
  content : String
  folder_id : Option String
  audio_path : Option String
  date : Time
  updated_at : Time
  is_deleted : Bool
deriving Repr, DecidableEq

/-- `FolderSyncItem` (`backend/app/schemas/folder.py`): one client batch
entry for a folder, already validated. -/
structure FolderSyncItem where
  id : String
  name : String
  color : String
  updated_at : Time
  is_deleted : Bool
deriving Repr, DecidableEq

/-- The row-matching predicate of the point lookups:
`Model.id == item.id, Model.user_id == user.id`. -/
def matchKey (uid nid : String) (rid ruid : String) : Bool :=
  rid == nid && ruid == uid

/-- `select(Note).where(Note.id == client_note.id, Note.user_id == user.id)`
followed by `scalar_one_or_none()`. -/
def findNote (notes : List NoteRec) (uid nid : String) : Option NoteRec :=
  notes.find? fun n => matchKey uid nid n.id n.user_id

/-- `select(Folder).where(Folder.id == client_folder.id, Folder.user_id ==
user.id)` followed by `scalar_one_or_none()`. -/
def findFolder (folders : List FolderRec) (uid fid : String) : Option FolderRec :=
  folders.find? fun f => matchKey uid fid f.id f.user_id

/-- The field assignments of the client-newer branch of `sync_notes`
(lines 65–72): every mutable field is taken from the client item,
`updated_at` from the client, `synced_at := sync_time`. -/
def overwriteNoteFields (sync_time : Time) (c : NoteSyncItem) (n : NoteRec) : NoteRec :=
  { n with
    title := c.title
    content := c.content
    folder_id := c.folder_id
    audio_path := c.audio_path
    date := c.date
    is_deleted := c.is_deleted
    updated_at := c.updated_at
    synced_at := some sync_time }

/-- The attachment-cleanup step of `sync_notes` (lines 74–81): when the
accepted client state is a deletion and the (freshly assigned) audio path
is a non-empty string naming an existing file, the file is removed and the
stored path cleared.  Returns the final record and the file system. -/
def audioCleanup (c : NoteSyncItem) (n : NoteRec) (files : List String) :
    NoteRec × List String :=
  if c.is_deleted then
    match n.audio_path with
    | some p =>
        if p ≠ "" ∧ p ∈ files then ({ n with audio_path := none }, files.erase p)
        else (n, files)
    | none => (n, files)
  else (n, files)

/-- The note record produced by an accepted client-newer overwrite,
after attachment cleanup. -/
def noteAfterOverwrite (sync_time : Time) (c : NoteSyncItem) (n : NoteRec)
    (files : List String) : NoteRec × List String :=
  audioCleanup c (overwriteNoteFields sync_time c n) files

/-- The `Note(...)` constructed for an unknown id with `is_deleted = false`
(`sync_notes` lines 89–100).  `created_at` is the column default, stamped
at insert time. -/
def newNoteOf (uid : String) (sync_time : Time) (c : NoteSyncItem) : NoteRec :=
  { id := c.id
    user_id := uid
    folder_id := c.folder_id
    title := c.title
    content := c.content
    audio_path := c.audio_path
    date := c.date
    created_at := sync_time
    updated_at := c.updated_at
    synced_at := some sync_time
    is_deleted := c.is_deleted }

/-- One iteration of the `for client_note in client_notes` loop of
`sync_notes` (lines 52–103).  Returns the updated state together with the
ids appended to `notes_to_index` by this iteration (the Python list holds
ORM object references; field values are read again at dispatch time, so
ids suffice). -/
def noteStep (uid : String) (sync_time : Time) (st : DB) (c : NoteSyncItem) :
    DB × List String :=
  match findNote st.notes uid c.id with
  | some existing =>
      if existing.updated_at < c.updated_at then
        let nf := noteAfterOverwrite sync_time c existing st.files
        let notes' := st.notes.map fun n =>
          if matchKey uid c.id n.id n.user_id then nf.1 else n
        let idx := if ¬ c.is_deleted ∧ (c.content ≠ "" ∨ c.title ≠ "") then [c.id] else []
        ({ st with notes := notes', files := nf.2 }, idx)
      else (st, [])
  | none =>
      if c.is_deleted then (st, [])
      else
        let nn := newNoteOf uid sync_time c
        let idx := if nn.content ≠ "" ∨ nn.title ≠ "" then [c.id] else []
        ({ st with notes := st.notes ++ [nn] }, idx)

/-- The state after the full client-notes loop of `sync_notes`. -/
def applyNotes (uid : String) (sync_time : Time) (st : DB)
    (batch : List NoteSyncItem) : DB :=
  batch.foldl (fun s c => (noteStep uid sync_time s c).1) st

/-- The ids accumulated in `notes_to_index` over the full loop, in order. -/
def notesToIndex (uid : String) (sync_time : Time) (st : DB) :
    List NoteSyncItem → List String
  | [] => []
  | c :: cs =>
      (noteStep uid sync_time st c).2 ++
        notesToIndex uid sync_time (noteStep uid sync_time st c).1 cs

/-- A background re-indexing task handed to
`rag_service.sync_diary_to_vector_db` (`sync_notes` lines 108–117). -/
structure IndexTask where
  note_id : String
  text : String
  user_id : String
  title : String
deriving Repr, DecidableEq

/-- The `background_tasks.add_task` loop (`sync_notes` lines 108–117): for
each collected note, a task is queued only when `note.content` is truthy
(the "double check content exists"); the title falls back to
`"Untitled"` when falsy.  Field values are read from the post-loop state. -/
def queuedTasks (uid : String) (st : DB) (toIndex : List String) : List IndexTask :=
  toIndex.filterMap fun nid =>
    match findNote st.notes uid nid with
    | some n =>
        if n.content ≠ "" then
          some ⟨n.id, n.content, uid, if n.title = "" then "Untitled" else n.title⟩
        else none
    | none => none

/-- The changed-since filter of the notes delta query (`sync_notes` lines
120–129): with a checkpoint, `updated_at > last_sync_at OR synced_at >
last_sync_at` (a NULL `synced_at` compares false); without one, every row
passes. -/
def noteChangedSince (cp : Option Time) (n : NoteRec) : Bool :=
  match cp with
  | none => true
  | some t =>
      decide (t < n.updated_at) ||
        (match n.synced_at with
         | some s => decide (t < s)
         | none => false)

/-- The notes delta: rows of the owner passing the changed-since filter,
evaluated on the post-batch state. -/
def notesDelta (uid : String) (cp : Option Time) (st : DB) : List NoteRec :=
  (st.notes.filter fun n => n.user_id == uid).filter (noteChangedSince cp)

/-- `SyncService.sync_notes`: process the client batch, compute the queued
indexing tasks and the server delta.  Returns the committed state, the
queued tasks, and the delta. -/
def sync_notes (uid : String) (sync_time : Time) (batch : List NoteSyncItem)
    (last_sync_at : Option Time) (st : DB) : DB × List IndexTask × List NoteRec :=
  let st' := applyNotes uid sync_time st batch
  let tasks := queuedTasks uid st' (notesToIndex uid sync_time st batch)
  (st', tasks, notesDelta uid last_sync_at st')

/-- The field assignments of the client-newer branch of `sync_folders`
(lines 168–172): `name`, `color`, `is_deleted`, `updated_at` from the
client.  There is no `synced_at` column to stamp. -/
def overwriteFolderFields (c : FolderSyncItem) (f : FolderRec) : FolderRec :=
  { f with
    name := c.name
    color := c.color
    is_deleted := c.is_deleted
    updated_at := c.updated_at }

/-- The `Folder(...)` constructed for an unknown id with
`is_deleted = false` (`sync_folders` lines 175–182). -/
def newFolderOf (uid : String) (sync_time : Time) (c : FolderSyncItem) : FolderRec :=
  { id := c.id
    user_id := uid
    name := c.name
    color := c.color
    created_at := sync_time
    updated_at := c.updated_at
    is_deleted := c.is_deleted }

/-- One iteration of the `for client_folder in client_folders` loop of
`sync_folders` (lines 158–183). -/
def folderStep (uid : String) (sync_time : Time) (folders : List FolderRec)
    (c : FolderSyncItem) : List FolderRec :=
  match findFolder folders uid c.id with
  | some existing =>
      if existing.updated_at < c.updated_at then
        let f2 := overwriteFolderFields c existing
        folders.map fun f => if matchKey uid c.id f.id f.user_id then f2 else f
      else folders
  | none =>
      if c.is_deleted then folders
      else folders ++ [newFolderOf uid sync_time c]

/-- The folders table after the full client-folders loop. -/
def applyFolders (uid : String) (sync_time : Time) (folders : List FolderRec)
    (batch : List FolderSyncItem) : List FolderRec :=
  batch.foldl (folderStep uid sync_time) folders

/-- The changed-since filter of the folders delta query (`sync_folders`
lines 190–191): only `updated_at > last_sync_at` is compared — the Folder
model has no `synced_at` column. -/
def folderChangedSince (cp : Option Time) (f : FolderRec) : Bool :=
  match cp with
  | none => true
  | some t => decide (t < f.updated_at)

/-- The folders delta: rows of the owner passing the changed-since filter,
evaluated on the post-batch state. -/
def foldersDelta (uid : String) (cp : Option Time) (folders : List FolderRec) :
    List FolderRec :=
  (folders.filter fun f => f.user_id == uid).filter (folderChangedSince cp)

/-- `SyncService.sync_folders`: process the client batch and compute the
server delta.  Returns the committed folders table and the delta. -/
def sync_folders (uid : String) (sync_time : Time) (batch : List FolderSyncItem)
    (last_sync_at : Option Time) (folders : List FolderRec) :
    List FolderRec × List FolderRec :=
  let fs' := applyFolders uid sync_time folders batch
  (fs', foldersDelta uid last_sync_at fs')

/-- The raw (unvalidated) JSON shape of one note entry in a `/sync` request
body: each field may be absent. -/
structure RawNoteItem where
  id : Option String
  title : Option String
  content : Option String
  folder_id : Option String
  audio_path : Option String
  date : Option Time
  updated_at : Option Time
  is_deleted : Option Bool
deriving Repr, DecidableEq

/-- The raw JSON shape of one folder entry in a `/sync` request body. -/
structure RawFolderItem where
  id : Option String
  name : Option String
  color : Option String
  updated_at : Option Time
  is_deleted : Option Bool
deriving Repr, DecidableEq

/-- Pydantic validation of one `NoteSyncItem`
(`backend/app/schemas/note.py`, lines 46–55): `id`, `date` and
`updated_at` are required; `title`, `content`, `is_deleted` default to
`""`, `""`, `false`; `folder_id` and `audio_path` default to null. -/
def parseNoteItem (r : RawNoteItem) : Option NoteSyncItem := do
  let nid ← r.id
  let d ← r.date
  let ua ← r.updated_at
  pure
    { id := nid
      title := r.title.getD ""
      content := r.content.getD ""
      folder_id := r.folder_id
      audio_path := r.audio_path
      date := d
      updated_at := ua
      is_deleted := r.is_deleted.getD false }

/-- Pydantic validation of one `FolderSyncItem`
(`backend/app/schemas/folder.py`, lines 39–45): `id`, `name` and
`updated_at` are required; `color` and `is_deleted` have defaults. -/
def parseFolderItem (r : RawFolderItem) : Option FolderSyncItem := do
  let fid ← r.id
  let nm ← r.name
  let ua ← r.updated_at
  pure
    { id := fid
      name := nm
      color := r.color.getD "#E8B731"
      updated_at := ua
      is_deleted := r.is_deleted.getD false }

/-- The raw `/sync` request body (`SyncRequest`,
`backend/app/schemas/note.py` lines 58–62). -/
structure RawSyncRequest where
  notes : List RawNoteItem
  folders : List RawFolderItem
  last_sync_at : Option Time
deriving Repr, DecidableEq

/-- A validated `SyncRequest`. -/
structure SyncRequest where
  notes : List NoteSyncItem
  folders : List FolderSyncItem
  last_sync_at : Option Time
deriving Repr, DecidableEq

/-- FastAPI's request-body validation for the `/sync` endpoint
(`backend/app/routers/sync.py` line 20, `sync_request: SyncRequest`): the
whole body is validated at once; a single malformed entry anywhere makes
validation of the entire request fail, in which case FastAPI answers
`422 Unprocessable Entity` and the handler body is never entered. -/
def parseSyncRequest (r : RawSyncRequest) : Option SyncRequest := do
  let ns ← r.notes.mapM parseNoteItem
  let fs ← r.folders.mapM parseFolderItem
  pure ⟨ns, fs, r.last_sync_at⟩

/-- The response assembled by `sync_data`
(`backend/app/routers/sync.py` lines 57–61). -/
structure SyncResponse where
  notes : List NoteRec
  tasks : List IndexTask
  folders : List FolderRec
  sync_timestamp : Time
deriving Repr, DecidableEq

/-- The stored state after one full sync pass (notes pass, then folders
pass), ignoring responses. -/
def syncPassState (uid : String) (sync_time : Time) (req : SyncRequest)
    (st : DB) : DB :=
  let st1 := applyNotes uid sync_time st req.notes
  { st1 with folders := applyFolders uid sync_time st1.folders req.folders }

/-- The `/sync` endpoint `sync_data` (`backend/app/routers/sync.py`):
validate the body; on failure return 422 with the state untouched; on
success run `sync_notes` then `sync_folders` and assemble the response. -/
def sync_data (uid : String) (sync_time : Time) (raw : RawSyncRequest)
    (st : DB) : DB × Except Unit SyncResponse :=
  match parseSyncRequest raw with
  | none => (st, .error ())
  | some req =>
      let r1 := sync_notes uid sync_time req.notes req.last_sync_at st
      let r2 := sync_folders uid sync_time req.folders req.last_sync_at r1.1.folders
      ({ r1.1 with folders := r2.1 },
       .ok ⟨r1.2.2, r1.2.1, r2.2, sync_time⟩)

/-- `delete_folder` (`backend/app/routers/folders.py` lines 127–172): look
the folder up by `(id, owner)`; 404 when absent; otherwise move every note
of the owner referencing it — with no condition on the note's own
`is_deleted` — to `folder_id = null`, then hard-delete the folder row or
soft-delete it (`is_deleted := true`, bump `updated_at`), and commit the
whole mutation as one transaction.  Because `Note.updated_at` is declared
with `onupdate=datetime.utcnow` (`backend/app/models/note.py` lines
56–60), the ORM stamps each reassigned note's `updated_at` with the
current time when the cascade's write is flushed; that flush-time clock
is the transaction's `now` here.  (The folder's own soft-delete bump is
the handler's explicit `datetime.utcnow()` assignment at line 170.) -/
def delete_folder (uid fid : String) (hard_delete : Bool) (now : Time)
    (st : DB) : Except Nat DB :=
  match findFolder st.folders uid fid with
  | none => .error 404
  | some folder =>
      let notes' := st.notes.map fun n =>
        if n.folder_id == some fid && n.user_id == uid then
          { n with folder_id := none, updated_at := now }
        else n
      let folders' :=
        if hard_delete then
          st.folders.filter fun f => ¬ matchKey uid fid f.id f.user_id
        else
          st.folders.map fun f =>
            if matchKey uid fid f.id f.user_id then
              { folder with is_deleted := true, updated_at := now }
            else f
      .ok { st with notes := notes', folders := folders' }

/-- Whether the attachment-cleanup branch fires for an accepted client
item: a deletion whose audio path is a non-empty name of an existing file. -/
def audioRemoved (c : NoteSyncItem) (files : List String) : Bool :=
  c.is_deleted &&
    (match c.audio_path with
     | some p => decide (p ≠ "") && decide (p ∈ files)
     | none => false)

/-- A client entry is *settled* in a state when replaying it cannot change
anything: either the row exists with an `updated_at` at least the entry's
(strict last-write-wins will skip it), or the row is absent and the entry
is a tombstone (the no-op branch). -/
def noteSettled (uid : String) (c : NoteSyncItem) (st : DB) : Prop :=
  match findNote st.notes uid c.id with
  | some n => c.updated_at ≤ n.updated_at
  | none => c.is_deleted = true

/-- Folder analog of `noteSettled`. -/
def folderSettled (uid : String) (c : FolderSyncItem) (fl : List FolderRec) : Prop :=
  match findFolder fl uid c.id with
  | some f => c.updated_at ≤ f.updated_at
  | none => c.is_deleted = true

/-- The spec's changed-since-checkpoint condition, in the spec's own
words: with a checkpoint, `updated_at > checkpoint OR synced_at >
checkpoint`; with no checkpoint, every record of the owner. -/
def specChangedSince (cp : Option Time) (ua : Time) (sa : Option Time) : Prop :=
  match cp with
  | none => True
  | some cpt => cpt < ua ∨ ∃ s, sa = some s ∧ cpt < s

/-- The Folder model (`backend/app/models/folder.py`) has no `synced_at`
column at all, so a folder's server-stamp timestamp is vacuously absent. -/
def folderSyncedAt (_f : FolderRec) : Option Time := none

/-! ## Generic list lemmas about `find?`, `map` and `filter` -/

theorem find_replace_of_found {α : Type} (p : α → Bool) (b : α) (hb : p b = true) :
    ∀ (l : List α) (a : α), l.find? p = some a →
      (l.map fun x => if p x then b else x).find? p = some b := by
  intro l
  induction l with
  | nil => intro a h; simp [List.find?] at h
  | cons x xs ih =>
      intro a h
      by_cases hx : p x = true
      · simp [List.find?, hx, hb]
      · have hx' : p x = false := by simpa using hx
        simp [List.find?, hx'] at h
        rcases h with h
        simpa [List.map, List.find?, hx'] using ih a h

theorem map_replace_of_not_found {α : Type} (p : α → Bool) (b : α) :
    ∀ l : List α, l.find? p = none →
      (l.map fun x => if p x then b else x) = l := by
  intro l
  induction l with
  | nil => intro _; rfl
  | cons x xs ih =>
      intro h
      have hall := List.find?_eq_none.mp h
      have hx' : p x = false := by simpa using hall x (by simp)
      have hxs : xs.find? p = none :=
        List.find?_eq_none.mpr fun a ha => hall a (by simp [ha])
      simp [List.map, hx', ih hxs]

theorem find_map_invariant {α : Type} (q : α → Bool) (f : α → α)
    (h1 : ∀ x, q (f x) = q x) (h2 : ∀ x, q x = true → f x = x) :
    ∀ l : List α, (l.map f).find? q = l.find? q := by
  intro l
  induction l with
  | nil => rfl
  | cons x xs ih =>
      by_cases hx : q x = true
      · simp [List.map, List.find?, h1, hx, h2 x hx]
      · have hx' : q x = false := by simpa using hx
        simp [List.map, List.find?, h1, hx', ih]

theorem find_append_none {α : Type} (q : α → Bool) (l1 l2 : List α)
    (h : l1.find? q = none) : (l1 ++ l2).find? q = l2.find? q := by
  induction l1 with
  | nil => rfl
  | cons x xs ih =>
      have hall := List.find?_eq_none.mp h
      have hx' : q x = false := by simpa using hall x (by simp)
      have hxs : xs.find? q = none :=
        List.find?_eq_none.mpr fun a ha => hall a (by simp [ha])
      simpa [List.find?, hx'] using ih hxs

theorem find_append_some {α : Type} (q : α → Bool) (l1 l2 : List α) (a : α)
    (h : l1.find? q = some a) : (l1 ++ l2).find? q = some a := by
  induction l1 with
  | nil => simp [List.find?] at h
  | cons x xs ih =>
      by_cases hx : q x = true
      · simp only [List.cons_append, List.find?_cons, hx] at h ⊢; exact h
      · have hx' : q x = false := by simpa using hx
        simp only [List.cons_append, List.find?_cons, hx'] at h ⊢
        exact ih h

theorem filter_map_invariant {α : Type} (q : α → Bool) (f : α → α)
    (h1 : ∀ x, q (f x) = q x) (h2 : ∀ x, q x = true → f x = x) :
    ∀ l : List α, (l.map f).filter q = l.filter q := by
  intro l
  induction l with
  | nil => rfl
  | cons x xs ih =>
      by_cases hx : q x = true
      · simp [List.map, List.filter, h1, hx, h2 x hx, ih]
      · have hx' : q x = false := by simpa using hx
        simp [List.map, List.filter, h1, hx', ih]

theorem filter_map_comm {α : Type} (r : α → Bool) (f : α → α)
    (h1 : ∀ x, r (f x) = r x) :
    ∀ l : List α, (l.map f).filter r = (l.filter r).map f := by
  intro l
  induction l with
  | nil => rfl
  | cons x xs ih =>
      by_cases hx : r x = true
      · simp [List.map, List.filter, h1, hx, ih]
      · have hx' : r x = false := by simpa using hx
        simp [List.map, List.filter, h1, hx', ih]

theorem find_eq_find_filter {α : Type} (q r : α → Bool)
    (h : ∀ x, q x = true → r x = true) :
    ∀ l : List α, (l.filter r).find? q = l.find? q := by
  intro l
  induction l with
  | nil => rfl
  | cons x xs ih =>
      by_cases hx : q x = true
      · simp [List.filter, h x hx, List.find?, hx]
      · have hx' : q x = false := by simpa using hx
        by_cases hr : r x = true
        · simpa [List.filter, hr, List.find?, hx'] using ih
        · have hr' : r x = false := by simpa using hr
          simpa [List.filter, hr', List.find?, hx'] using ih

/-! ## Branch lemmas for the note reconciliation step -/

theorem matchKey_eq_true {uid nid a b : String} :
    matchKey uid nid a b = true ↔ a = nid ∧ b = uid := by
  simp [matchKey]

theorem noteAfterOverwrite_fst_eq (t : Time) (c : NoteSyncItem) (ex : NoteRec)
    (files : List String) :
    (noteAfterOverwrite t c ex files).1 =
      { overwriteNoteFields t c ex with
        audio_path := if audioRemoved c files then none else c.audio_path } := by
  unfold noteAfterOverwrite audioCleanup audioRemoved
  cases hd : c.is_deleted with
  | false => simp [overwriteNoteFields]
  | true =>
      cases hap : c.audio_path with
      | none => simp [overwriteNoteFields, hap]
      | some p =>
          by_cases hp : p ≠ "" ∧ p ∈ files <;>
            simp [overwriteNoteFields, hap, hp]

theorem noteAfterOverwrite_key (t : Time) (c : NoteSyncItem) (ex : NoteRec)
    (files : List String) :
    (noteAfterOverwrite t c ex files).1.id = ex.id ∧
      (noteAfterOverwrite t c ex files).1.user_id = ex.user_id ∧
      (noteAfterOverwrite t c ex files).1.updated_at = c.updated_at := by
  rw [noteAfterOverwrite_fst_eq]
  simp [overwriteNoteFields]

theorem noteStep_not_newer (uid : String) (t : Time) (st : DB) (c : NoteSyncItem)
    (ex : NoteRec) (hex : findNote st.notes uid c.id = some ex)
    (hle : c.updated_at ≤ ex.updated_at) :
    noteStep uid t st c = (st, []) := by
  unfold noteStep
  rw [hex]
  simp [Nat.not_lt.mpr hle]

theorem noteStep_newer (uid : String) (t : Time) (st : DB) (c : NoteSyncItem)
    (ex : NoteRec) (hex : findNote st.notes uid c.id = some ex)
    (hlt : ex.updated_at < c.updated_at) :
    (noteStep uid t st c).1.notes =
        (st.notes.map fun n =>
          if matchKey uid c.id n.id n.user_id then (noteAfterOverwrite t c ex st.files).1
          else n) ∧
      (noteStep uid t st c).1.folders = st.folders ∧
      (noteStep uid t st c).1.files = (noteAfterOverwrite t c ex st.files).2 ∧
      (noteStep uid t st c).2 =
        (if ¬ c.is_deleted ∧ (c.content ≠ "" ∨ c.title ≠ "") then [c.id] else []) := by
  unfold noteStep
  rw [hex]
  simp [hlt]

theorem noteStep_unknown_deleted (uid : String) (t : Time) (st : DB)
    (c : NoteSyncItem) (hno : findNote st.notes uid c.id = none)
    (hd : c.is_deleted = true) : noteStep uid t st c = (st, []) := by
  unfold noteStep
  rw [hno]
  simp [hd]

theorem noteStep_created (uid : String) (t : Time) (st : DB) (c : NoteSyncItem)
    (hno : findNote st.notes uid c.id = none) (hd : c.is_deleted = false) :
    (noteStep uid t st c).1.notes = st.notes ++ [newNoteOf uid t c] ∧
      (noteStep uid t st c).1.folders = st.folders ∧
      (noteStep uid t st c).1.files = st.files ∧
      (noteStep uid t st c).2 =
        (if c.content ≠ "" ∨ c.title ≠ "" then [c.id] else []) := by
  unfold noteStep
  rw [hno]
  simp [hd, newNoteOf]

theorem noteStep_folders_unchanged (uid : String) (t : Time) (st : DB)
    (c : NoteSyncItem) : (noteStep uid t st c).1.folders = st.folders := by
  unfold noteStep
  cases hex : findNote st.notes uid c.id with
  | some ex => by_cases hlt : ex.updated_at < c.updated_at <;> simp [hlt]
  | none => by_cases hd : c.is_deleted = true <;> simp_all

/-! ## The stored row after one note step -/

theorem findNote_after_overwrite (uid : String) (t : Time) (st : DB)
    (c : NoteSyncItem) (ex : NoteRec) (hex : findNote st.notes uid c.id = some ex)
    (hlt : ex.updated_at < c.updated_at) :
    findNote (noteStep uid t st c).1.notes uid c.id =
      some (noteAfterOverwrite t c ex st.files).1 := by
  have hkey := noteAfterOverwrite_key t c ex st.files
  have hex' : st.notes.find? (fun n => matchKey uid c.id n.id n.user_id) = some ex := hex
  have hexkey : matchKey uid c.id ex.id ex.user_id = true := by
    have h := List.find?_some hex'
    simpa using h
  rw [(noteStep_newer uid t st c ex hex hlt).1]
  exact find_replace_of_found _ _ (by rw [hkey.1, hkey.2.1]; exact hexkey) st.notes ex hex'

theorem findNote_after_create (uid : String) (t : Time) (st : DB)
    (c : NoteSyncItem) (hno : findNote st.notes uid c.id = none)
    (hd : c.is_deleted = false) :
    findNote (noteStep uid t st c).1.notes uid c.id = some (newNoteOf uid t c) := by
  rw [(noteStep_created uid t st c hno hd).1]
  unfold findNote at hno ⊢
  rw [find_append_none _ _ _ hno]
  simp [List.find?, matchKey, newNoteOf]

theorem findNote_step_other (uid : String) (t : Time) (st : DB)
    (c : NoteSyncItem) (nid : String) (hne : nid ≠ c.id) :
    findNote (noteStep uid t st c).1.notes uid nid = findNote st.notes uid nid := by
  unfold noteStep
  cases hex : findNote st.notes uid c.id with
  | some ex =>
      by_cases hlt : ex.updated_at < c.updated_at
      · have hkey := noteAfterOverwrite_key t c ex st.files
        have hex' : st.notes.find? (fun n => matchKey uid c.id n.id n.user_id) =
            some ex := hex
        have hexkey := matchKey_eq_true.mp (show matchKey uid c.id ex.id ex.user_id = true by
          have h := List.find?_some hex'
          simpa using h)
        simp only [hlt, if_true]
        unfold findNote
        refine find_map_invariant _ _ ?_ ?_ st.notes
        · intro x
          by_cases hx : matchKey uid c.id x.id x.user_id = true
          · simp only [hx, if_true]
            have h1 : matchKey uid nid (noteAfterOverwrite t c ex st.files).1.id
                (noteAfterOverwrite t c ex st.files).1.user_id = false := by
              rw [Bool.eq_false_iff]
              intro hcon
              exact hne ((matchKey_eq_true.mp hcon).1.symm.trans
                (hkey.1.trans hexkey.1))
            have h2 : matchKey uid nid x.id x.user_id = false := by
              rw [Bool.eq_false_iff]
              intro hcon
              exact hne (((matchKey_eq_true.mp hcon).1.symm.trans
                (matchKey_eq_true.mp hx).1))
            rw [h1, h2]
          · simp [Bool.eq_false_iff.mpr hx]
        · intro x hx
          have : matchKey uid c.id x.id x.user_id = false := by
            rw [Bool.eq_false_iff]
            intro hcon
            exact hne ((matchKey_eq_true.mp hx).1.symm.trans
              (matchKey_eq_true.mp hcon).1)
          simp [this]
      · simp [hlt]
  | none =>
      by_cases hd : c.is_deleted = true
      · simp [hd]
      · have hd' : c.is_deleted = false := by simpa using hd
        simp only [hd', Bool.false_eq_true, if_false]
        unfold findNote
        cases hfind : st.notes.find? fun n => matchKey uid nid n.id n.user_id with
        | some a => exact find_append_some _ _ _ _ hfind
        | none =>
            rw [find_append_none _ _ _ hfind]
            have hne' : (c.id == nid) = false := by
              rw [beq_eq_false_iff_ne]
              exact fun h => hne h.symm
            simp [List.find?, matchKey, newNoteOf, hne']

/-! ## Idempotence machinery for the notes pass -/

theorem noteStep_of_settled (uid : String) (t : Time) (st : DB)
    (c : NoteSyncItem) (h : noteSettled uid c st) :
    noteStep uid t st c = (st, []) := by
  unfold noteSettled at h
  cases hex : findNote st.notes uid c.id with
  | some ex =>
      rw [hex] at h
      exact noteStep_not_newer uid t st c ex hex h
  | none =>
      rw [hex] at h
      exact noteStep_unknown_deleted uid t st c hex h

theorem noteSettled_after_step (uid : String) (t : Time) (st : DB)
    (c : NoteSyncItem) : noteSettled uid c ((noteStep uid t st c).1) := by
  unfold noteSettled
  cases hex : findNote st.notes uid c.id with
  | some ex =>
      by_cases hlt : ex.updated_at < c.updated_at
      · rw [findNote_after_overwrite uid t st c ex hex hlt]
        exact Nat.le_of_eq (noteAfterOverwrite_key t c ex st.files).2.2.symm
      · rw [noteStep_not_newer uid t st c ex hex (Nat.not_lt.mp hlt)]
        simpa [hex] using Nat.not_lt.mp hlt
  | none =>
      by_cases hd : c.is_deleted = true
      · rw [noteStep_unknown_deleted uid t st c hex hd]
        rw [hex]
        exact hd
      · have hd' : c.is_deleted = false := by simpa using hd
        rw [findNote_after_create uid t st c hex hd']
        exact Nat.le_of_eq rfl

theorem noteSettled_preserved (uid : String) (t : Time) (st : DB)
    (c c' : NoteSyncItem) (hne : c.id ≠ c'.id) (h : noteSettled uid c st) :
    noteSettled uid c ((noteStep uid t st c').1) := by
  unfold noteSettled at h ⊢
  rw [findNote_step_other uid t st c' c.id hne]
  exact h

theorem noteSettled_applyNotes_preserved (uid : String) (t : Time)
    (c : NoteSyncItem) :
    ∀ (batch : List NoteSyncItem) (st : DB), (∀ c' ∈ batch, c.id ≠ c'.id) →
      noteSettled uid c st → noteSettled uid c (applyNotes uid t st batch) := by
  intro batch
  induction batch with
  | nil => intro st _ h; exact h
  | cons c' cs ih =>
      intro st hall h
      have h1 : noteSettled uid c ((noteStep uid t st c').1) :=
        noteSettled_preserved uid t st c c' (hall c' (by simp)) h
      exact ih _ (fun x hx => hall x (by simp [hx])) h1

theorem applyNotes_all_settled (uid : String) (t : Time) :
    ∀ (batch : List NoteSyncItem) (st : DB),
      (batch.map NoteSyncItem.id).Nodup →
      ∀ c ∈ batch, noteSettled uid c (applyNotes uid t st batch) := by
  intro batch
  induction batch with
  | nil => intro st _ c hc; cases hc
  | cons c0 cs ih =>
      intro st hnodup c hc
      have hnd := List.nodup_cons.mp hnodup
      rcases List.mem_cons.mp hc with hc0 | hcs
      · subst hc0
        have hsettled : noteSettled uid c ((noteStep uid t st c).1) :=
          noteSettled_after_step uid t st c
        have : applyNotes uid t st (c :: cs) =
            applyNotes uid t ((noteStep uid t st c).1) cs := by
          simp [applyNotes, List.foldl_cons]
        rw [this]
        refine noteSettled_applyNotes_preserved uid t c cs _ ?_ hsettled
        intro c' hc' hidc
        exact hnd.1 (hidc ▸ List.mem_map_of_mem NoteSyncItem.id hc')
      · have : applyNotes uid t st (c0 :: cs) =
            applyNotes uid t ((noteStep uid t st c0).1) cs := by
          simp [applyNotes, List.foldl_cons]
        rw [this]
        exact ih _ hnd.2 c hcs

theorem applyNotes_of_all_settled (uid : String) (t : Time) :
    ∀ (batch : List NoteSyncItem) (st : DB),
      (∀ c ∈ batch, noteSettled uid c st) → applyNotes uid t st batch = st := by
  intro batch
  induction batch with
  | nil => intro st _; rfl
  | cons c0 cs ih =>
      intro st hall
      have h0 : noteStep uid t st c0 = (st, []) :=
        noteStep_of_settled uid t st c0 (hall c0 (by simp))
      have : applyNotes uid t st (c0 :: cs) =
          applyNotes uid t ((noteStep uid t st c0).1) cs := by
        simp [applyNotes, List.foldl_cons]
      rw [this, h0]
      exact ih _ fun c hc => hall c (by simp [hc])

/-! ## Branch lemmas for the folder reconciliation step -/

theorem folderStep_not_newer (uid : String) (t : Time) (fl : List FolderRec)
    (c : FolderSyncItem) (ex : FolderRec) (hex : findFolder fl uid c.id = some ex)
    (hle : c.updated_at ≤ ex.updated_at) :
    folderStep uid t fl c = fl := by
  unfold folderStep
  rw [hex]
  simp [Nat.not_lt.mpr hle]

theorem folderStep_newer (uid : String) (t : Time) (fl : List FolderRec)
    (c : FolderSyncItem) (ex : FolderRec) (hex : findFolder fl uid c.id = some ex)
    (hlt : ex.updated_at < c.updated_at) :
    folderStep uid t fl c =
      fl.map fun f =>
        if matchKey uid c.id f.id f.user_id then overwriteFolderFields c ex else f := by
  unfold folderStep
  rw [hex]
  simp [hlt]

theorem folderStep_unknown_deleted (uid : String) (t : Time) (fl : List FolderRec)
    (c : FolderSyncItem) (hno : findFolder fl uid c.id = none)
    (hd : c.is_deleted = true) : folderStep uid t fl c = fl := by
  unfold folderStep
  rw [hno]
  simp [hd]

theorem folderStep_created (uid : String) (t : Time) (fl : List FolderRec)
    (c : FolderSyncItem) (hno : findFolder fl uid c.id = none)
    (hd : c.is_deleted = false) :
    folderStep uid t fl c = fl ++ [newFolderOf uid t c] := by
  unfold folderStep
  rw [hno]
  simp [hd]

theorem findFolder_after_overwrite (uid : String) (t : Time) (fl : List FolderRec)
    (c : FolderSyncItem) (ex : FolderRec) (hex : findFolder fl uid c.id = some ex)
    (hlt : ex.updated_at < c.updated_at) :
    findFolder (folderStep uid t fl c) uid c.id = some (overwriteFolderFields c ex) := by
  have hex' : fl.find? (fun f => matchKey uid c.id f.id f.user_id) = some ex := hex
  have hexkey : matchKey uid c.id ex.id ex.user_id = true := by
    have h := List.find?_some hex'
    simpa using h
  rw [folderStep_newer uid t fl c ex hex hlt]
  exact find_replace_of_found _ _ (by simpa [overwriteFolderFields] using hexkey) fl ex hex'

theorem findFolder_after_create (uid : String) (t : Time) (fl : List FolderRec)
    (c : FolderSyncItem) (hno : findFolder fl uid c.id = none)
    (hd : c.is_deleted = false) :
    findFolder (folderStep uid t fl c) uid c.id = some (newFolderOf uid t c) := by
  rw [folderStep_created uid t fl c hno hd]
  unfold findFolder at hno ⊢
  rw [find_append_none _ _ _ hno]
  simp [List.find?, matchKey, newFolderOf]

theorem findFolder_step_other (uid : String) (t : Time) (fl : List FolderRec)
    (c : FolderSyncItem) (fid : String) (hne : fid ≠ c.id) :
    findFolder (folderStep uid t fl c) uid fid = findFolder fl uid fid := by
  unfold folderStep
  cases hex : findFolder fl uid c.id with
  | some ex =>
      by_cases hlt : ex.updated_at < c.updated_at
      · have hex' : fl.find? (fun f => matchKey uid c.id f.id f.user_id) = some ex := hex
        have hexkey := matchKey_eq_true.mp
          (show matchKey uid c.id ex.id ex.user_id = true by
            have h := List.find?_some hex'
            simpa using h)
        simp only [hlt, if_true]
        unfold findFolder
        refine find_map_invariant _ _ ?_ ?_ fl
        · intro x
          by_cases hx : matchKey uid c.id x.id x.user_id = true
          · simp only [hx, if_true]
            have h1 : matchKey uid fid (overwriteFolderFields c ex).id
                (overwriteFolderFields c ex).user_id = false := by
              rw [Bool.eq_false_iff]
              intro hcon
              have hid : ex.id = fid := by
                simpa [overwriteFolderFields] using (matchKey_eq_true.mp hcon).1
              exact hne (hid.symm.trans hexkey.1)
            have h2 : matchKey uid fid x.id x.user_id = false := by
              rw [Bool.eq_false_iff]
              intro hcon
              exact hne (((matchKey_eq_true.mp hcon).1.symm.trans
                (matchKey_eq_true.mp hx).1))
            rw [h1, h2]
          · simp [Bool.eq_false_iff.mpr hx]
        · intro x hx
          have : matchKey uid c.id x.id x.user_id = false := by
            rw [Bool.eq_false_iff]
            intro hcon
            exact hne ((matchKey_eq_true.mp hx).1.symm.trans
              (matchKey_eq_true.mp hcon).1)
          simp [this]
      · simp [hlt]
  | none =>
      by_cases hd : c.is_deleted = true
      · simp [hd]
      · have hd' : c.is_deleted = false := by simpa using hd
        simp only [hd', Bool.false_eq_true, if_false]
        unfold findFolder
        cases hfind : fl.find? fun f => matchKey uid fid f.id f.user_id with
        | some a => exact find_append_some _ _ _ _ hfind
        | none =>
            rw [find_append_none _ _ _ hfind]
            have hne' : (c.id == fid) = false := by
              rw [beq_eq_false_iff_ne]
              exact fun h => hne h.symm
            simp [List.find?, matchKey, newFolderOf, hne']

/-! ## Idempotence machinery for the folders pass -/

theorem folderStep_of_settled (uid : String) (t : Time) (fl : List FolderRec)
    (c : FolderSyncItem) (h : folderSettled uid c fl) :
    folderStep uid t fl c = fl := by
  unfold folderSettled at h
  cases hex : findFolder fl uid c.id with
  | some ex =>
      rw [hex] at h
      exact folderStep_not_newer uid t fl c ex hex h
  | none =>
      rw [hex] at h
      exact folderStep_unknown_deleted uid t fl c hex h

theorem folderSettled_after_step (uid : String) (t : Time) (fl : List FolderRec)
    (c : FolderSyncItem) : folderSettled uid c (folderStep uid t fl c) := by
  unfold folderSettled
  cases hex : findFolder fl uid c.id with
  | some ex =>
      by_cases hlt : ex.updated_at < c.updated_at
      · rw [findFolder_after_overwrite uid t fl c ex hex hlt]
        simp [overwriteFolderFields]
      · rw [folderStep_not_newer uid t fl c ex hex (Nat.not_lt.mp hlt)]
        simpa [hex] using Nat.not_lt.mp hlt
  | none =>
      by_cases hd : c.is_deleted = true
      · rw [folderStep_unknown_deleted uid t fl c hex hd, hex]
        exact hd
      · have hd' : c.is_deleted = false := by simpa using hd
        rw [findFolder_after_create uid t fl c hex hd']
        simp [newFolderOf]

theorem folderSettled_preserved (uid : String) (t : Time) (fl : List FolderRec)
    (c c' : FolderSyncItem) (hne : c.id ≠ c'.id) (h : folderSettled uid c fl) :
    folderSettled uid c (folderStep uid t fl c') := by
  unfold folderSettled at h ⊢
  rw [findFolder_step_other uid t fl c' c.id hne]
  exact h

theorem folderSettled_applyFolders_preserved (uid : String) (t : Time)
    (c : FolderSyncItem) :
    ∀ (batch : List FolderSyncItem) (fl : List FolderRec),
      (∀ c' ∈ batch, c.id ≠ c'.id) →
      folderSettled uid c fl → folderSettled uid c (applyFolders uid t fl batch) := by
  intro batch
  induction batch with
  | nil => intro fl _ h; exact h
  | cons c' cs ih =>
      intro fl hall h
      have h1 : folderSettled uid c (folderStep uid t fl c') :=
        folderSettled_preserved uid t fl c c' (hall c' (by simp)) h
      exact ih _ (fun x hx => hall x (by simp [hx])) h1

theorem applyFolders_all_settled (uid : String) (t : Time) :
    ∀ (batch : List FolderSyncItem) (fl : List FolderRec),
      (batch.map FolderSyncItem.id).Nodup →
      ∀ c ∈ batch, folderSettled uid c (applyFolders uid t fl batch) := by
  intro batch
  induction batch with
  | nil => intro fl _ c hc; cases hc
  | cons c0 cs ih =>
      intro fl hnodup c hc
      have hnd := List.nodup_cons.mp hnodup
      rcases List.mem_cons.mp hc with hc0 | hcs
      · subst hc0
        have hsettled : folderSettled uid c (folderStep uid t fl c) :=
          folderSettled_after_step uid t fl c
        have hrw : applyFolders uid t fl (c :: cs) =
            applyFolders uid t (folderStep uid t fl c) cs := by
          simp [applyFolders, List.foldl_cons]
        rw [hrw]
        refine folderSettled_applyFolders_preserved uid t c cs _ ?_ hsettled
        intro c' hc' hidc
        exact hnd.1 (hidc ▸ List.mem_map_of_mem FolderSyncItem.id hc')
      · have hrw : applyFolders uid t fl (c0 :: cs) =
            applyFolders uid t (folderStep uid t fl c0) cs := by
          simp [applyFolders, List.foldl_cons]
        rw [hrw]
        exact ih _ hnd.2 c hcs

theorem applyFolders_of_all_settled (uid : String) (t : Time) :
    ∀ (batch : List FolderSyncItem) (fl : List FolderRec),
      (∀ c ∈ batch, folderSettled uid c fl) → applyFolders uid t fl batch = fl := by
  intro batch
  induction batch with
  | nil => intro fl _; rfl
  | cons c0 cs ih =>
      intro fl hall
      have h0 : folderStep uid t fl c0 = fl :=
        folderStep_of_settled uid t fl c0 (hall c0 (by simp))
      have hrw : applyFolders uid t fl (c0 :: cs) =
          applyFolders uid t (folderStep uid t fl c0) cs := by
        simp [applyFolders, List.foldl_cons]
      rw [hrw, h0]
      exact ih _ fun c hc => hall c (by simp [hc])

/-- The notes pass never touches the folders table. -/
theorem applyNotes_folders_unchanged (uid : String) (t : Time) :
    ∀ (batch : List NoteSyncItem) (st : DB),
      (applyNotes uid t st batch).folders = st.folders := by
  intro batch
  induction batch with
  | nil => intro st; rfl
  | cons c cs ih =>
      intro st
      have hrw : applyNotes uid t st (c :: cs) =
          applyNotes uid t ((noteStep uid t st c).1) cs := by
        simp [applyNotes, List.foldl_cons]
      rw [hrw, ih]
      exact noteStep_folders_unchanged uid t st c

/-! ## Owner-scoping machinery -/

theorem matchKey_user (uid nid : String) (n : NoteRec)
    (h : matchKey uid nid n.id n.user_id = true) : (n.user_id == uid) = true := by
  simpa using (matchKey_eq_true.mp h).2

theorem findNote_eq_on_owned (uid nid : String) (l : List NoteRec) :
    findNote l uid nid = findNote (l.filter fun n => n.user_id == uid) uid nid := by
  unfold findNote
  exact (find_eq_find_filter _ _ (fun x hx => matchKey_user uid nid x hx) l).symm

theorem matchKeyF_user (uid fid : String) (f : FolderRec)
    (h : matchKey uid fid f.id f.user_id = true) : (f.user_id == uid) = true := by
  simpa using (matchKey_eq_true.mp h).2

theorem findFolder_eq_on_owned (uid fid : String) (l : List FolderRec) :
    findFolder l uid fid = findFolder (l.filter fun f => f.user_id == uid) uid fid := by
  unfold findFolder
  exact (find_eq_find_filter _ _ (fun x hx => matchKeyF_user uid fid x hx) l).symm

theorem noteStep_other_users (uid : String) (t : Time) (st : DB) (c : NoteSyncItem) :
    (noteStep uid t st c).1.notes.filter (fun n => !(n.user_id == uid)) =
      st.notes.filter fun n => !(n.user_id == uid) := by
  unfold noteStep
  cases hex : findNote st.notes uid c.id with
  | some ex =>
      by_cases hlt : ex.updated_at < c.updated_at
      · have hexkey := matchKey_eq_true.mp
          (show matchKey uid c.id ex.id ex.user_id = true by
            have h := List.find?_some (show st.notes.find?
              (fun n => matchKey uid c.id n.id n.user_id) = some ex from hex)
            simpa using h)
        have hkey := noteAfterOverwrite_key t c ex st.files
        simp only [hlt, if_true]
        refine filter_map_invariant _ _ ?_ ?_ st.notes
        · intro x
          by_cases hx : matchKey uid c.id x.id x.user_id = true
          · simp only [hx, if_true]
            have h1 : ((noteAfterOverwrite t c ex st.files).1.user_id == uid) = true := by
              rw [hkey.2.1]
              simp [hexkey.2]
            have h2 : (x.user_id == uid) = true := matchKey_user uid c.id x hx
            rw [h1, h2]
          · simp [Bool.eq_false_iff.mpr hx]
        · intro x hx
          have hxu : (x.user_id == uid) = false := by
            cases hq : x.user_id == uid with
            | false => rfl
            | true => rw [hq] at hx; simp at hx
          have : matchKey uid c.id x.id x.user_id = false := by
            rw [Bool.eq_false_iff]
            intro hcon
            rw [matchKey_user uid c.id x hcon] at hxu
            simp at hxu
          simp [this]
      · simp [hlt]
  | none =>
      by_cases hd : c.is_deleted = true
      · simp [hd]
      · have hd' : c.is_deleted = false := by simpa using hd
        simp only [hd', Bool.false_eq_true, if_false]
        simp [List.filter_append, newNoteOf]

theorem applyNotes_other_users (uid : String) (t : Time) :
    ∀ (batch : List NoteSyncItem) (st : DB),
      (applyNotes uid t st batch).notes.filter (fun n => !(n.user_id == uid)) =
        st.notes.filter fun n => !(n.user_id == uid) := by
  intro batch
  induction batch with
  | nil => intro st; rfl
  | cons c cs ih =>
      intro st
      have hrw : applyNotes uid t st (c :: cs) =
          applyNotes uid t ((noteStep uid t st c).1) cs := by
        simp [applyNotes, List.foldl_cons]
      rw [hrw, ih]
      exact noteStep_other_users uid t st c

theorem folderStep_other_users (uid : String) (t : Time) (fl : List FolderRec)
    (c : FolderSyncItem) :
    (folderStep uid t fl c).filter (fun f => !(f.user_id == uid)) =
      fl.filter fun f => !(f.user_id == uid) := by
  unfold folderStep
  cases hex : findFolder fl uid c.id with
  | some ex =>
      by_cases hlt : ex.updated_at < c.updated_at
      · have hexkey := matchKey_eq_true.mp
          (show matchKey uid c.id ex.id ex.user_id = true by
            have h := List.find?_some (show fl.find?
              (fun f => matchKey uid c.id f.id f.user_id) = some ex from hex)
            simpa using h)
        simp only [hlt, if_true]
        refine filter_map_invariant _ _ ?_ ?_ fl
        · intro x
          by_cases hx : matchKey uid c.id x.id x.user_id = true
          · simp only [hx, if_true]
            have h1 : ((overwriteFolderFields c ex).user_id == uid) = true := by
              simp [overwriteFolderFields, hexkey.2]
            have h2 : (x.user_id == uid) = true := matchKeyF_user uid c.id x hx
            rw [h1, h2]
          · simp [Bool.eq_false_iff.mpr hx]
        · intro x hx
          have hxu : (x.user_id == uid) = false := by
            cases hq : x.user_id == uid with
            | false => rfl
            | true => rw [hq] at hx; simp at hx
          have : matchKey uid c.id x.id x.user_id = false := by
            rw [Bool.eq_false_iff]
            intro hcon
            rw [matchKeyF_user uid c.id x hcon] at hxu
            simp at hxu
          simp [this]
      · simp [hlt]
  | none =>
      by_cases hd : c.is_deleted = true
      · simp [hd]
      · have hd' : c.is_deleted = false := by simpa using hd
        simp only [hd', Bool.false_eq_true, if_false]
        simp [List.filter_append, newFolderOf]

theorem applyFolders_other_users (uid : String) (t : Time) :
    ∀ (batch : List FolderSyncItem) (fl : List FolderRec),
      (applyFolders uid t fl batch).filter (fun f => !(f.user_id == uid)) =
        fl.filter fun f => !(f.user_id == uid) := by
  intro batch
  induction batch with
  | nil => intro fl; rfl
  | cons c cs ih =>
      intro fl
      have hrw : applyFolders uid t fl (c :: cs) =
          applyFolders uid t (folderStep uid t fl c) cs := by
        simp [applyFolders, List.foldl_cons]
      rw [hrw, ih]
      exact folderStep_other_users uid t fl c

/-! ## Delta noninterference machinery -/

theorem noteStep_congr_owned (uid : String) (t : Time) (c : NoteSyncItem)
    (st1 st2 : DB)
    (hn : st1.notes.filter (fun n => n.user_id == uid) =
      st2.notes.filter fun n => n.user_id == uid)
    (hfiles : st1.files = st2.files) :
    (noteStep uid t st1 c).1.notes.filter (fun n => n.user_id == uid) =
        (noteStep uid t st2 c).1.notes.filter (fun n => n.user_id == uid) ∧
      (noteStep uid t st1 c).1.files = (noteStep uid t st2 c).1.files := by
  have hfind : findNote st1.notes uid c.id = findNote st2.notes uid c.id := by
    rw [findNote_eq_on_owned, hn, ← findNote_eq_on_owned]
  unfold noteStep
  rw [hfind]
  cases hex : findNote st2.notes uid c.id with
  | some ex =>
      by_cases hlt : ex.updated_at < c.updated_at
      · have hexkey := matchKey_eq_true.mp
          (show matchKey uid c.id ex.id ex.user_id = true by
            have h := List.find?_some (show st2.notes.find?
              (fun n => matchKey uid c.id n.id n.user_id) = some ex from hex)
            simpa using h)
        have hkey := noteAfterOverwrite_key t c ex st2.files
        have hcm : ∀ l : List NoteRec,
            (l.map fun n =>
                if matchKey uid c.id n.id n.user_id then
                  (noteAfterOverwrite t c ex st2.files).1
                else n).filter (fun n => n.user_id == uid) =
              (l.filter fun n => n.user_id == uid).map fun n =>
                if matchKey uid c.id n.id n.user_id then
                  (noteAfterOverwrite t c ex st2.files).1
                else n := by
          refine filter_map_comm _ _ ?_
          intro x
          by_cases hx : matchKey uid c.id x.id x.user_id = true
          · simp only [hx, if_true]
            have h1 : ((noteAfterOverwrite t c ex st2.files).1.user_id == uid) = true := by
              rw [hkey.2.1]
              simp [hexkey.2]
            have h2 : (x.user_id == uid) = true := matchKey_user uid c.id x hx
            rw [h1, h2]
          · simp [Bool.eq_false_iff.mpr hx]
        simp only [hlt, if_true, hfiles]
        constructor
        · rw [hcm st1.notes, hn, ← hcm st2.notes]
        · trivial
      · simp [hlt, hn, hfiles]
  | none =>
      by_cases hd : c.is_deleted = true
      · simp [hd, hn, hfiles]
      · have hd' : c.is_deleted = false := by simpa using hd
        simp only [hd', Bool.false_eq_true, if_false]
        refine ⟨?_, hfiles⟩
        simp [List.filter_append, newNoteOf, hn]

theorem applyNotes_congr_owned (uid : String) (t : Time) :
    ∀ (batch : List NoteSyncItem) (st1 st2 : DB),
      st1.notes.filter (fun n => n.user_id == uid) =
        st2.notes.filter (fun n => n.user_id == uid) →
      st1.files = st2.files →
      (applyNotes uid t st1 batch).notes.filter (fun n => n.user_id == uid) =
          (applyNotes uid t st2 batch).notes.filter (fun n => n.user_id == uid) ∧
        (applyNotes uid t st1 batch).files = (applyNotes uid t st2 batch).files := by
  intro batch
  induction batch with
  | nil => intro st1 st2 hn hf; exact ⟨hn, hf⟩
  | cons c cs ih =>
      intro st1 st2 hn hf
      have hstep := noteStep_congr_owned uid t c st1 st2 hn hf
      have hrw1 : applyNotes uid t st1 (c :: cs) =
          applyNotes uid t ((noteStep uid t st1 c).1) cs := by
        simp [applyNotes, List.foldl_cons]
      have hrw2 : applyNotes uid t st2 (c :: cs) =
          applyNotes uid t ((noteStep uid t st2 c).1) cs := by
        simp [applyNotes, List.foldl_cons]
      rw [hrw1, hrw2]
      exact ih _ _ hstep.1 hstep.2

theorem folderStep_congr_owned (uid : String) (t : Time) (c : FolderSyncItem)
    (fl1 fl2 : List FolderRec)
    (hn : fl1.filter (fun f => f.user_id == uid) =
      fl2.filter fun f => f.user_id == uid) :
    (folderStep uid t fl1 c).filter (fun f => f.user_id == uid) =
      (folderStep uid t fl2 c).filter fun f => f.user_id == uid := by
  have hfind : findFolder fl1 uid c.id = findFolder fl2 uid c.id := by
    rw [findFolder_eq_on_owned, hn, ← findFolder_eq_on_owned]
  unfold folderStep
  rw [hfind]
  cases hex : findFolder fl2 uid c.id with
  | some ex =>
      by_cases hlt : ex.updated_at < c.updated_at
      · have hexkey := matchKey_eq_true.mp
          (show matchKey uid c.id ex.id ex.user_id = true by
            have h := List.find?_some (show fl2.find?
              (fun f => matchKey uid c.id f.id f.user_id) = some ex from hex)
            simpa using h)
        have hcm : ∀ l : List FolderRec,
            (l.map fun f =>
                if matchKey uid c.id f.id f.user_id then overwriteFolderFields c ex
                else f).filter (fun f => f.user_id == uid) =
              (l.filter fun f => f.user_id == uid).map fun f =>
                if matchKey uid c.id f.id f.user_id then overwriteFolderFields c ex
                else f := by
          refine filter_map_comm _ _ ?_
          intro x
          by_cases hx : matchKey uid c.id x.id x.user_id = true
          · simp only [hx, if_true]
            have h1 : ((overwriteFolderFields c ex).user_id == uid) = true := by
              simp [overwriteFolderFields, hexkey.2]
            have h2 : (x.user_id == uid) = true := matchKeyF_user uid c.id x hx
            rw [h1, h2]
          · simp [Bool.eq_false_iff.mpr hx]
        simp only [hlt, if_true]
        rw [hcm fl1, hn, ← hcm fl2]
      · simp [hlt, hn]
  | none =>
      by_cases hd : c.is_deleted = true
      · simp [hd, hn]
      · have hd' : c.is_deleted = false := by simpa using hd
        simp only [hd', Bool.false_eq_true, if_false]
        simp [List.filter_append, newFolderOf, hn]

theorem applyFolders_congr_owned (uid : String) (t : Time) :
    ∀ (batch : List FolderSyncItem) (fl1 fl2 : List FolderRec),
      fl1.filter (fun f => f.user_id == uid) =
        fl2.filter (fun f => f.user_id == uid) →
      (applyFolders uid t fl1 batch).filter (fun f => f.user_id == uid) =
        (applyFolders uid t fl2 batch).filter (fun f => f.user_id == uid) := by
  intro batch
  induction batch with
  | nil => intro fl1 fl2 hn; exact hn
  | cons c cs ih =>
      intro fl1 fl2 hn
      have hstep := folderStep_congr_owned uid t c fl1 fl2 hn
      have hrw1 : applyFolders uid t fl1 (c :: cs) =
          applyFolders uid t (folderStep uid t fl1 c) cs := by
        simp [applyFolders, List.foldl_cons]
      have hrw2 : applyFolders uid t fl2 (c :: cs) =
          applyFolders uid t (folderStep uid t fl2 c) cs := by
        simp [applyFolders, List.foldl_cons]
      rw [hrw1, hrw2]
      exact ih _ _ hstep

/-! ## Claim theorems -/

/-- C4: a client batch entry (note or folder) whose id has no existing
server record for the owner and whose `is_deleted` is true is a complete
no-op: the state is unchanged, no row is created, and nothing is queued
for indexing — no tombstone row is ever created for an id the server
never had. -/
theorem C4_unknown_tombstone_noop (uid : String) (t : Time) (st : DB)
    (c : NoteSyncItem) (fl : List FolderRec) (cf : FolderSyncItem)
    (hno : findNote st.notes uid c.id = none) (hd : c.is_deleted = true)
    (hnof : findFolder fl uid cf.id = none) (hdf : cf.is_deleted = true) :
    noteStep uid t st c = (st, []) ∧ folderStep uid t fl cf = fl :=
  ⟨noteStep_unknown_deleted uid t st c hno hd,
   folderStep_unknown_deleted uid t fl cf hnof hdf⟩

theorem C4_unknown_tombstone_noop_witness :
    noteStep "u" 3 ⟨[], [], []⟩ ⟨"x", "T", "body", none, none, 1, 2, true⟩ =
        (⟨[], [], []⟩, []) ∧
      folderStep "u" 3 [] ⟨"f", "Trip", "#E8B731", 2, true⟩ = [] :=
  C4_unknown_tombstone_noop "u" 3 ⟨[], [], []⟩
    ⟨"x", "T", "body", none, none, 1, 2, true⟩ []
    ⟨"f", "Trip", "#E8B731", 2, true⟩ (by decide) (by decide) (by decide) (by decide)

/-- C10: the sync path never refuses updates to tombstoned records — a
client entry with `is_deleted = false` strictly newer than an existing
soft-deleted row un-deletes the row and replaces its payload with the
client's, for notes and for folders alike. -/
theorem C10_tombstone_resurrection (uid : String) (t : Time) (st : DB)
    (c : NoteSyncItem) (ex : NoteRec) (fl : List FolderRec)
    (cf : FolderSyncItem) (fex : FolderRec)
    (hex : findNote st.notes uid c.id = some ex) (hdel : ex.is_deleted = true)
    (hcd : c.is_deleted = false) (hlt : ex.updated_at < c.updated_at)
    (hfex : findFolder fl uid cf.id = some fex) (hfdel : fex.is_deleted = true)
    (hfcd : cf.is_deleted = false) (hflt : fex.updated_at < cf.updated_at) :
    (∃ r, findNote (noteStep uid t st c).1.notes uid c.id = some r ∧
        r.is_deleted = false ∧ r.title = c.title ∧ r.content = c.content ∧
        r.folder_id = c.folder_id ∧ r.audio_path = c.audio_path ∧
        r.date = c.date ∧ r.updated_at = c.updated_at ∧ r.synced_at = some t) ∧
      ∃ g, findFolder (folderStep uid t fl cf) uid cf.id = some g ∧
        g.is_deleted = false ∧ g.name = cf.name ∧ g.color = cf.color ∧
        g.updated_at = cf.updated_at := by
  constructor
  · refine ⟨(noteAfterOverwrite t c ex st.files).1,
      findNote_after_overwrite uid t st c ex hex hlt, ?_⟩
    rw [noteAfterOverwrite_fst_eq]
    simp [overwriteNoteFields, audioRemoved, hcd]
  · refine ⟨overwriteFolderFields cf fex,
      findFolder_after_overwrite uid t fl cf fex hfex hflt, ?_⟩
    simp [overwriteFolderFields, hfcd]

theorem C10_tombstone_resurrection_witness :
    (∃ r, findNote
        (noteStep "u" 7
          ⟨[⟨"n1", "u", none, "old", "oldbody", some "a.mp3", 0, 0, 1, none, true⟩],
            [], []⟩
          ⟨"n1", "new", "newbody", some "f1", some "b.mp3", 2, 3, false⟩).1.notes
        "u" "n1" = some r ∧
      r.is_deleted = false ∧ r.title = "new" ∧ r.content = "newbody" ∧
      r.folder_id = some "f1" ∧ r.audio_path = some "b.mp3" ∧
      r.date = 2 ∧ r.updated_at = 3 ∧ r.synced_at = some 7) ∧
    ∃ g, findFolder
        (folderStep "u" 7 [⟨"f1", "u", "Old", "#000000", 0, 1, true⟩]
          ⟨"f1", "New", "#ffffff", 3, false⟩) "u" "f1" = some g ∧
      g.is_deleted = false ∧ g.name = "New" ∧ g.color = "#ffffff" ∧
      g.updated_at = 3 :=
  C10_tombstone_resurrection "u" 7
    ⟨[⟨"n1", "u", none, "old", "oldbody", some "a.mp3", 0, 0, 1, none, true⟩], [], []⟩
    ⟨"n1", "new", "newbody", some "f1", some "b.mp3", 2, 3, false⟩
    ⟨"n1", "u", none, "old", "oldbody", some "a.mp3", 0, 0, 1, none, true⟩
    [⟨"f1", "u", "Old", "#000000", 0, 1, true⟩]
    ⟨"f1", "New", "#ffffff", 3, false⟩
    ⟨"f1", "u", "Old", "#000000", 0, 1, true⟩
    (by decide) (by decide) (by decide) (by decide)
    (by decide) (by decide) (by decide) (by decide)

/-- C5: deleting a folder (soft or hard) moves every note of the owner
that references it — regardless of the note's own `is_deleted` state — to
a null folder reference, within the same transaction (`delete_folder` is a
single atomic state transition whose result already contains both the
reassignments and the folder mutation).  Each reassigned note additionally
carries the ORM's `onupdate` bump of `updated_at` to the transaction
time. -/
theorem C5_folder_delete_cascade (uid fid : String) (hard : Bool) (now : Time)
    (st st' : DB) (h : delete_folder uid fid hard now st = .ok st') :
    (∀ n ∈ st.notes, n.user_id = uid → n.folder_id = some fid →
        { n with folder_id := none, updated_at := now } ∈ st'.notes) ∧
      ∀ n' ∈ st'.notes, n'.user_id = uid → n'.folder_id ≠ some fid := by
  unfold delete_folder at h
  cases hf : findFolder st.folders uid fid with
  | none => rw [hf] at h; cases h
  | some folder =>
      rw [hf] at h
      have hst' : st' = { st with
          notes := st.notes.map fun n =>
            if n.folder_id == some fid && n.user_id == uid then
              { n with folder_id := none, updated_at := now }
            else n,
          folders :=
            if hard then st.folders.filter fun f => ¬ matchKey uid fid f.id f.user_id
            else st.folders.map fun f =>
              if matchKey uid fid f.id f.user_id then
                { folder with is_deleted := true, updated_at := now }
              else f } := by
        cases h; rfl
      constructor
      · intro n hn hu hfid
        rw [hst']
        refine List.mem_map.mpr ⟨n, hn, ?_⟩
        simp [hfid, hu]
      · intro n' hn' hu' hcon
        rw [hst'] at hn'
        rcases List.mem_map.mp hn' with ⟨x, hx, hfx⟩
        by_cases hc : (x.folder_id == some fid && x.user_id == uid) = true
        · rw [if_pos hc] at hfx
          rw [← hfx] at hcon
          simp at hcon
        · have hc' : (x.folder_id == some fid && x.user_id == uid) = false := by
            simpa using hc
          rw [if_neg (by simp [hc'])] at hfx
          subst hfx
          simp [hcon, hu'] at hc'

theorem C5_folder_delete_cascade_witness :
    (∀ n ∈ (DB.mk
        [⟨"a", "u", some "f1", "A", "", none, 0, 0, 1, none, true⟩,
         ⟨"b", "u", some "f1", "B", "", none, 0, 0, 1, none, false⟩]
        [⟨"f1", "u", "Trip", "#E8B731", 0, 1, false⟩] []).notes,
      n.user_id = "u" → n.folder_id = some "f1" →
        { n with folder_id := none, updated_at := 9 } ∈
          (DB.mk
            [⟨"a", "u", none, "A", "", none, 0, 0, 9, none, true⟩,
             ⟨"b", "u", none, "B", "", none, 0, 0, 9, none, false⟩]
            [⟨"f1", "u", "Trip", "#E8B731", 0, 9, true⟩] []).notes) ∧
    ∀ n' ∈ (DB.mk
        [⟨"a", "u", none, "A", "", none, 0, 0, 9, none, true⟩,
         ⟨"b", "u", none, "B", "", none, 0, 0, 9, none, false⟩]
        [⟨"f1", "u", "Trip", "#E8B731", 0, 9, true⟩] []).notes,
      n'.user_id = "u" → n'.folder_id ≠ some "f1" :=
  C5_folder_delete_cascade "u" "f1" false 9
    (DB.mk
      [⟨"a", "u", some "f1", "A", "", none, 0, 0, 1, none, true⟩,
       ⟨"b", "u", some "f1", "B", "", none, 0, 0, 1, none, false⟩]
      [⟨"f1", "u", "Trip", "#E8B731", 0, 1, false⟩] [])
    (DB.mk
      [⟨"a", "u", none, "A", "", none, 0, 0, 9, none, true⟩,
       ⟨"b", "u", none, "B", "", none, 0, 0, 9, none, false⟩]
      [⟨"f1", "u", "Trip", "#E8B731", 0, 9, true⟩] [])
    (by rfl)

/-- C1 (counterexample): an accepted strictly-newer client entry is *not*
always written back verbatim on every mutable field: when the client state
is a deletion whose audio path names an existing file, the attachment
cleanup clears the stored `audio_path` to null even though the client
payload carried a path.  Here the client is strictly newer (1 < 2) and
sends `audio_path = some "a.mp3"`, yet the stored row ends with
`audio_path = none`. -/
theorem C1_counterexample :
    (1 : Time) <
        (NoteSyncItem.mk "n1" "t" "" none (some "a.mp3") 2 2 true).updated_at ∧
      (NoteSyncItem.mk "n1" "t" "" none (some "a.mp3") 2 2 true).audio_path =
        some "a.mp3" ∧
      (noteStep "u" 9
          ⟨[⟨"n1", "u", none, "old", "x", some "a.mp3", 0, 0, 1, none, false⟩],
            [], ["a.mp3"]⟩
          (NoteSyncItem.mk "n1" "t" "" none (some "a.mp3") 2 2 true)).1.notes.map
          NoteRec.audio_path = [none] := by
  refine ⟨by decide, by decide, ?_⟩
  decide

/-- C1 (amended): for an existing record of the owner, the row is
overwritten if and only if the client's `updated_at` is strictly greater
than the stored one (a tie changes nothing at all); on overwrite every
mutable field takes the client value and `updated_at` the client's, with
the single exception that for a note deletion whose audio path names an
existing non-empty file the stored `audio_path` is cleared to null (the
removed attachment).  Notes also get `synced_at = now`; folders (which
have no `synced_at` column) take `name`, `color`, `is_deleted`,
`updated_at` from the client. -/
theorem C1_lww_overwrite_iff (uid : String) (t : Time) (st : DB)
    (c : NoteSyncItem) (ex : NoteRec) (fl : List FolderRec)
    (cf : FolderSyncItem) (fex : FolderRec)
    (hex : findNote st.notes uid c.id = some ex)
    (hfex : findFolder fl uid cf.id = some fex) :
    ((ex.updated_at < c.updated_at →
        ∃ r, findNote (noteStep uid t st c).1.notes uid c.id = some r ∧
          r.title = c.title ∧ r.content = c.content ∧
          r.folder_id = c.folder_id ∧ r.date = c.date ∧
          r.is_deleted = c.is_deleted ∧ r.updated_at = c.updated_at ∧
          r.synced_at = some t ∧
          r.audio_path = if audioRemoved c st.files then none else c.audio_path) ∧
      (¬ ex.updated_at < c.updated_at → noteStep uid t st c = (st, []))) ∧
      (fex.updated_at < cf.updated_at →
        ∃ g, findFolder (folderStep uid t fl cf) uid cf.id = some g ∧
          g.name = cf.name ∧ g.color = cf.color ∧ g.is_deleted = cf.is_deleted ∧
          g.updated_at = cf.updated_at) ∧
      (¬ fex.updated_at < cf.updated_at → folderStep uid t fl cf = fl) := by
  refine ⟨⟨?_, ?_⟩, ?_, ?_⟩
  · intro hlt
    refine ⟨(noteAfterOverwrite t c ex st.files).1,
      findNote_after_overwrite uid t st c ex hex hlt, ?_⟩
    rw [noteAfterOverwrite_fst_eq]
    simp [overwriteNoteFields]
  · intro hge
    exact noteStep_not_newer uid t st c ex hex (Nat.not_lt.mp hge)
  · intro hflt
    refine ⟨overwriteFolderFields cf fex,
      findFolder_after_overwrite uid t fl cf fex hfex hflt, ?_⟩
    simp [overwriteFolderFields]
  · intro hfge
    exact folderStep_not_newer uid t fl cf fex hfex (Nat.not_lt.mp hfge)

theorem C1_lww_overwrite_iff_witness :
    ((1 < 2 →
        ∃ r, findNote
            (noteStep "u" 9
              ⟨[⟨"n1", "u", none, "old", "x", none, 0, 0, 1, none, false⟩], [], []⟩
              ⟨"n1", "new", "y", none, none, 2, 2, false⟩).1.notes "u" "n1" =
            some r ∧
          r.title = "new" ∧ r.content = "y" ∧ r.folder_id = none ∧ r.date = 2 ∧
          r.is_deleted = false ∧ r.updated_at = 2 ∧ r.synced_at = some 9 ∧
          r.audio_path =
            if audioRemoved ⟨"n1", "new", "y", none, none, 2, 2, false⟩ [] then none
            else none) ∧
      (¬ (1 : Time) < 2 →
        noteStep "u" 9
            ⟨[⟨"n1", "u", none, "old", "x", none, 0, 0, 1, none, false⟩], [], []⟩
            ⟨"n1", "new", "y", none, none, 2, 2, false⟩ =
          (⟨[⟨"n1", "u", none, "old", "x", none, 0, 0, 1, none, false⟩], [], []⟩,
            []))) ∧
      ((1 : Time) < 2 →
        ∃ g, findFolder
            (folderStep "u" 9 [⟨"f1", "u", "Old", "#000000", 0, 1, false⟩]
              ⟨"f1", "New", "#ffffff", 2, false⟩) "u" "f1" = some g ∧
          g.name = "New" ∧ g.color = "#ffffff" ∧ g.is_deleted = false ∧
          g.updated_at = 2) ∧
      (¬ (1 : Time) < 2 →
        folderStep "u" 9 [⟨"f1", "u", "Old", "#000000", 0, 1, false⟩]
            ⟨"f1", "New", "#ffffff", 2, false⟩ =
          [⟨"f1", "u", "Old", "#000000", 0, 1, false⟩]) :=
  C1_lww_overwrite_iff "u" 9
    ⟨[⟨"n1", "u", none, "old", "x", none, 0, 0, 1, none, false⟩], [], []⟩
    ⟨"n1", "new", "y", none, none, 2, 2, false⟩
    ⟨"n1", "u", none, "old", "x", none, 0, 0, 1, none, false⟩
    [⟨"f1", "u", "Old", "#000000", 0, 1, false⟩]
    ⟨"f1", "New", "#ffffff", 2, false⟩
    ⟨"f1", "u", "Old", "#000000", 0, 1, false⟩
    (by decide) (by decide)

theorem noteChangedSince_iff (cp : Option Time) (n : NoteRec) :
    noteChangedSince cp n = true ↔ specChangedSince cp n.updated_at n.synced_at := by
  cases cp with
  | none => simp [noteChangedSince, specChangedSince]
  | some cpt =>
      cases hs : n.synced_at with
      | none => simp [noteChangedSince, specChangedSince, hs]
      | some s => simp [noteChangedSince, specChangedSince, hs]

theorem folderChangedSince_iff (cp : Option Time) (f : FolderRec) :
    folderChangedSince cp f = true ↔
      specChangedSince cp f.updated_at (folderSyncedAt f) := by
  cases cp <;> simp [folderChangedSince, specChangedSince, folderSyncedAt]

/-- C2: the delta a sync call returns is exactly the owner's records
satisfying `updated_at > checkpoint OR synced_at > checkpoint`, evaluated
on the post-batch state, and all of the owner's records when the
checkpoint is absent — for notes using the row's nullable `synced_at`
(so a row whose `synced_at` alone advanced is included), for folders
using the vacuously absent `folderSyncedAt` (the Folder model has no
`synced_at` column, so the second disjunct never fires and the code's
`updated_at`-only filter coincides with the condition). -/
theorem C2_delta_changed_since (uid : String) (t : Time)
    (nb : List NoteSyncItem) (fb : List FolderSyncItem) (cp : Option Time)
    (st : DB) (fl : List FolderRec) :
    (∀ n, n ∈ (sync_notes uid t nb cp st).2.2 ↔
        n ∈ (sync_notes uid t nb cp st).1.notes ∧ n.user_id = uid ∧
          specChangedSince cp n.updated_at n.synced_at) ∧
      ∀ f, f ∈ (sync_folders uid t fb cp fl).2 ↔
        f ∈ (sync_folders uid t fb cp fl).1 ∧ f.user_id = uid ∧
          specChangedSince cp f.updated_at (folderSyncedAt f) := by
  constructor
  · intro n
    have h := noteChangedSince_iff cp n
    simp only [sync_notes, notesDelta, List.mem_filter, h, and_assoc, beq_iff_eq]
  · intro f
    have h := folderChangedSince_iff cp f
    simp only [sync_folders, foldersDelta, List.mem_filter, h, and_assoc, beq_iff_eq]

theorem noteSettled_congr (uid : String) (c : NoteSyncItem) (st1 st2 : DB)
    (h : st1.notes = st2.notes) (hs : noteSettled uid c st1) :
    noteSettled uid c st2 := by
  unfold noteSettled at hs ⊢
  rw [← h]
  exact hs

/-- C3 (counterexample): reconciliation is *not* idempotent for every
batch.  With no stored rows and the batch
`[ {id x, deleted, updated_at 5}, {id x, not deleted, updated_at 3} ]`,
the first run drops the tombstone entry (unknown id) and then creates the
row with `updated_at 3`; the second run finds that row, sees `5 > 3`, and
overwrites it into a tombstone — the stored state changes between the
first and the second run of the identical call. -/
theorem C3_counterexample :
    syncPassState "u" 1
        ⟨[⟨"x", "A", "", none, none, 0, 5, true⟩,
          ⟨"x", "B", "b", none, none, 0, 3, false⟩], [], none⟩
        (syncPassState "u" 1
          ⟨[⟨"x", "A", "", none, none, 0, 5, true⟩,
            ⟨"x", "B", "b", none, none, 0, 3, false⟩], [], none⟩
          ⟨[], [], []⟩) ≠
      syncPassState "u" 1
        ⟨[⟨"x", "A", "", none, none, 0, 5, true⟩,
          ⟨"x", "B", "b", none, none, 0, 3, false⟩], [], none⟩
        ⟨[], [], []⟩ := by
  decide

/-- C3 (amended): reconciliation is idempotent for every batch whose
entries have pairwise distinct ids (per record kind): replaying the
identical batch — even at a later server time — leaves the stored state
exactly as after the first run.  The counterexample shows the restriction
is necessary when one batch carries two entries for the same id. -/
theorem C3_idempotent_distinct_ids (uid : String) (t1 t2 : Time)
    (req : SyncRequest) (st : DB)
    (hn : (req.notes.map NoteSyncItem.id).Nodup)
    (hf : (req.folders.map FolderSyncItem.id).Nodup) :
    syncPassState uid t2 req (syncPassState uid t1 req st) =
      syncPassState uid t1 req st := by
  have hnotes2 : applyNotes uid t2 (syncPassState uid t1 req st) req.notes =
      syncPassState uid t1 req st := by
    apply applyNotes_of_all_settled
    intro c hc
    refine noteSettled_congr uid c (applyNotes uid t1 st req.notes) _ rfl ?_
    exact applyNotes_all_settled uid t1 req.notes st hn c hc
  have hfolders2 : applyFolders uid t2 (syncPassState uid t1 req st).folders
      req.folders = (syncPassState uid t1 req st).folders := by
    apply applyFolders_of_all_settled
    intro c hc
    have hfold : (syncPassState uid t1 req st).folders =
        applyFolders uid t1 (applyNotes uid t1 st req.notes).folders req.folders :=
      rfl
    rw [hfold]
    exact applyFolders_all_settled uid t1 req.folders _ hf c hc
  have key : ∀ S : DB, applyNotes uid t2 S req.notes = S →
      applyFolders uid t2 S.folders req.folders = S.folders →
      syncPassState uid t2 req S = S := by
    intro S h1 h2
    unfold syncPassState
    rw [h1]
    show DB.mk S.notes (applyFolders uid t2 S.folders req.folders) S.files = S
    rw [h2]
  exact key _ hnotes2 hfolders2

theorem C3_idempotent_distinct_ids_witness :
    ((([⟨"x", "A", "a", none, none, 0, 5, false⟩,
        ⟨"y", "B", "", none, none, 0, 4, true⟩] :
          List NoteSyncItem).map NoteSyncItem.id).Nodup ∧
      (([⟨"f", "Trip", "#E8B731", 3, false⟩] :
          List FolderSyncItem).map FolderSyncItem.id).Nodup) ∧
    syncPassState "u" 2
        ⟨[⟨"x", "A", "a", none, none, 0, 5, false⟩,
          ⟨"y", "B", "", none, none, 0, 4, true⟩],
          [⟨"f", "Trip", "#E8B731", 3, false⟩], none⟩
        (syncPassState "u" 1
          ⟨[⟨"x", "A", "a", none, none, 0, 5, false⟩,
            ⟨"y", "B", "", none, none, 0, 4, true⟩],
            [⟨"f", "Trip", "#E8B731", 3, false⟩], none⟩
          ⟨[], [], []⟩) =
      syncPassState "u" 1
        ⟨[⟨"x", "A", "a", none, none, 0, 5, false⟩,
          ⟨"y", "B", "", none, none, 0, 4, true⟩],
          [⟨"f", "Trip", "#E8B731", 3, false⟩], none⟩
        ⟨[], [], []⟩ :=
  ⟨⟨by decide, by decide⟩,
    C3_idempotent_distinct_ids "u" 1 2
      ⟨[⟨"x", "A", "a", none, none, 0, 5, false⟩,
        ⟨"y", "B", "", none, none, 0, 4, true⟩],
        [⟨"f", "Trip", "#E8B731", 3, false⟩], none⟩
      ⟨[], [], []⟩ (by decide) (by decide)⟩

/-- C6 (counterexample): per-entry reject-and-continue does *not* hold.
The `/sync` request body is validated as a whole by the endpoint's
`sync_request: SyncRequest` parameter: one malformed entry (here the
second note entry lacks the required `updated_at`) makes the entire call
fail with a validation error (422), the handler never runs, and the
perfectly well-formed first entry is not processed — although processing
it alone would have created a row. -/
theorem C6_counterexample :
    (parseNoteItem
        ⟨some "n1", some "T", some "body", none, none, some 1, some 2,
          some false⟩).isSome = true ∧
      sync_data "u" 5
          ⟨[⟨some "n1", some "T", some "body", none, none, some 1, some 2,
              some false⟩,
            ⟨some "n2", some "T", some "body", none, none, some 1, none,
              some false⟩], [], none⟩
          ⟨[], [], []⟩ = (⟨[], [], []⟩, .error ()) ∧
      (sync_data "u" 5
          ⟨[⟨some "n1", some "T", some "body", none, none, some 1, some 2,
              some false⟩], [], none⟩
          ⟨[], [], []⟩).1.notes ≠ [] :=
  ⟨by decide, by rfl, by decide⟩

/-- C6 (amended): validation of a sync request is all-or-nothing, not
reject-and-continue: whenever the body fails to validate (any malformed
entry anywhere in the batch), the endpoint returns a validation error with
the stored state completely untouched — no entry of the batch, well-formed
or not, is processed. -/
theorem C6_malformed_rejects_whole_call (uid : String) (t : Time)
    (raw : RawSyncRequest) (st : DB) (h : parseSyncRequest raw = none) :
    sync_data uid t raw st = (st, .error ()) := by
  unfold sync_data
  rw [h]

theorem C6_malformed_rejects_whole_call_witness :
    sync_data "u" 5
        ⟨[⟨some "n1", some "T", some "body", none, none, some 1, some 2,
            some false⟩,
          ⟨some "n2", some "T", some "body", none, none, some 1, none,
            some false⟩], [], none⟩
        ⟨[⟨"k", "v", none, "", "", none, 0, 0, 0, none, false⟩], [], []⟩ =
      (⟨[⟨"k", "v", none, "", "", none, 0, 0, 0, none, false⟩], [], []⟩,
        .error ()) :=
  C6_malformed_rejects_whole_call "u" 5
    ⟨[⟨some "n1", some "T", some "body", none, none, some 1, some 2, some false⟩,
      ⟨some "n2", some "T", some "body", none, none, some 1, none, some false⟩],
      [], none⟩
    ⟨[⟨"k", "v", none, "", "", none, 0, 0, 0, none, false⟩], [], []⟩ (by decide)

theorem queuedTasks_single (uid : String) (st' : DB) (nid : String) (r : NoteRec)
    (h : findNote st'.notes uid nid = some r) :
    queuedTasks uid st' [nid] =
      if r.content ≠ "" then
        [⟨r.id, r.content, uid, if r.title = "" then "Untitled" else r.title⟩]
      else [] := by
  unfold queuedTasks
  simp only [List.filterMap, h]
  split <;> simp_all

/-- C7 (counterexample): an accepted note with empty content and
non-empty title is *not* queued for re-indexing.  The note below is
accepted (created as a new row) and its title `"T"` is non-empty, so the
claim requires a queued task; but the `add_task` loop re-checks
`note.content` and skips it — the queued-task list is empty. -/
theorem C7_counterexample :
    ((NoteSyncItem.mk "n1" "T" "" none none 1 2 false).title ≠ "" ∧
      (sync_notes "u" 3 [NoteSyncItem.mk "n1" "T" "" none none 1 2 false]
          none ⟨[], [], []⟩).1.notes ≠ []) ∧
      (sync_notes "u" 3 [NoteSyncItem.mk "n1" "T" "" none none 1 2 false]
          none ⟨[], [], []⟩).2.1 = [] := by
  refine ⟨⟨by decide, by decide⟩, by decide⟩

/-- C7 (amended): for a single-entry batch, a note accepted as a
client-newer overwrite or created as a new row is *collected* when its
content or title is non-empty, but an indexing task is actually queued if
and only if its content is non-empty (the dispatch loop re-checks
`note.content`); the task carries the note's content as text and its
title, with `"Untitled"` substituted for an empty title. -/
theorem C7_indexing_queue_condition (uid : String) (t : Time) (st : DB)
    (c : NoteSyncItem) (cp : Option Time) (hnd : c.is_deleted = false) :
    (findNote st.notes uid c.id = none →
      (sync_notes uid t [c] cp st).2.1 =
        if c.content ≠ "" then
          [⟨c.id, c.content, uid, if c.title = "" then "Untitled" else c.title⟩]
        else []) ∧
    ∀ ex, findNote st.notes uid c.id = some ex → ex.updated_at < c.updated_at →
      (sync_notes uid t [c] cp st).2.1 =
        if c.content ≠ "" then
          [⟨c.id, c.content, uid, if c.title = "" then "Untitled" else c.title⟩]
        else [] := by
  constructor
  · intro hno
    have htasks : (sync_notes uid t [c] cp st).2.1 =
        queuedTasks uid ((noteStep uid t st c).1)
          ((noteStep uid t st c).2 ++ []) := rfl
    rw [htasks, List.append_nil]
    have hstep := noteStep_created uid t st c hno hnd
    rw [hstep.2.2.2]
    by_cases hcontent : c.content = ""
    · by_cases htitle : c.title = ""
      · simp [hcontent, htitle, queuedTasks]
      · have hfound := findNote_after_create uid t st c hno hnd
        rw [if_pos (by simp [hcontent, htitle])]
        rw [queuedTasks_single uid _ c.id (newNoteOf uid t c) hfound]
        simp [newNoteOf, hcontent]
    · have hfound := findNote_after_create uid t st c hno hnd
      rw [if_pos (by simp [hcontent])]
      rw [queuedTasks_single uid _ c.id (newNoteOf uid t c) hfound]
      simp [newNoteOf, hcontent]
  · intro ex hex hlt
    have htasks : (sync_notes uid t [c] cp st).2.1 =
        queuedTasks uid ((noteStep uid t st c).1)
          ((noteStep uid t st c).2 ++ []) := rfl
    rw [htasks, List.append_nil]
    have hstep := noteStep_newer uid t st c ex hex hlt
    rw [hstep.2.2.2]
    have hfound := findNote_after_overwrite uid t st c ex hex hlt
    have hfields := noteAfterOverwrite_fst_eq t c ex st.files
    have hexkey : ex.id = c.id ∧ ex.user_id = uid := matchKey_eq_true.mp
      (show matchKey uid c.id ex.id ex.user_id = true by
        have hh := List.find?_some (show st.notes.find?
          (fun n => matchKey uid c.id n.id n.user_id) = some ex from hex)
        simpa using hh)
    by_cases hcontent : c.content = ""
    · by_cases htitle : c.title = ""
      · simp [hcontent, htitle, hnd, queuedTasks]
      · rw [if_pos (by simp [hcontent, htitle, hnd])]
        rw [queuedTasks_single uid _ c.id _ hfound, hfields]
        simp [overwriteNoteFields, hcontent, hexkey.1]
    · rw [if_pos (by simp [hcontent, hnd])]
      rw [queuedTasks_single uid _ c.id _ hfound, hfields]
      simp [overwriteNoteFields, hcontent, hexkey.1]

theorem C7_indexing_queue_condition_witness :
    (findNote ([] : List NoteRec) "u" "n1" = none →
      (sync_notes "u" 3 [NoteSyncItem.mk "n1" "T" "body" none none 1 2 false]
          none ⟨[], [], []⟩).2.1 =
        if ("body" : String) ≠ "" then
          [⟨"n1", "body", "u", if ("T" : String) = "" then "Untitled" else "T"⟩]
        else []) ∧
    ∀ ex, findNote ([] : List NoteRec) "u" "n1" = some ex →
      ex.updated_at < 2 →
      (sync_notes "u" 3 [NoteSyncItem.mk "n1" "T" "body" none none 1 2 false]
          none ⟨[], [], []⟩).2.1 =
        if ("body" : String) ≠ "" then
          [⟨"n1", "body", "u", if ("T" : String) = "" then "Untitled" else "T"⟩]
        else [] :=
  C7_indexing_queue_condition "u" 3 ⟨[], [], []⟩
    (NoteSyncItem.mk "n1" "T" "body" none none 1 2 false) none (by decide)

/-- C8 (counterexample): last-in-batch-wins does *not* hold, and for
distinct ids the stored outcome is *not* always order-independent.
First conjunct: with two same-id entries (updated_at 10 then 5) on an
empty store, the first entry's payload `"A"` is stored, while replaying
only the last entry would store `"B"` — the last entry processed does not
determine the final state.  Last conjunct: two tombstone entries with
distinct ids but the same audio path give different stored states in the
two processing orders, because the first one processed deletes the shared
file and the second then keeps its dangling path. -/
theorem C8_counterexample :
    ((applyNotes "u" 1 ⟨[], [], []⟩
        [⟨"x", "A", "", none, none, 0, 10, false⟩,
         ⟨"x", "B", "", none, none, 0, 5, false⟩]).notes.map NoteRec.title =
        ["A"] ∧
      (NoteSyncItem.mk "x" "B" "" none none 0 5 false).title = "B" ∧
      (applyNotes "u" 1 ⟨[], [], []⟩
        [⟨"x", "B", "", none, none, 0, 5, false⟩]).notes.map NoteRec.title =
        ["B"]) ∧
    applyNotes "u" 1
        ⟨[⟨"x", "u", none, "", "", none, 0, 0, 1, none, false⟩,
          ⟨"y", "u", none, "", "", none, 0, 0, 1, none, false⟩], [], ["p"]⟩
        [⟨"x", "", "", none, some "p", 0, 2, true⟩,
         ⟨"y", "", "", none, some "p", 0, 2, true⟩] ≠
      applyNotes "u" 1
        ⟨[⟨"x", "u", none, "", "", none, 0, 0, 1, none, false⟩,
          ⟨"y", "u", none, "", "", none, 0, 0, 1, none, false⟩], [], ["p"]⟩
        [⟨"y", "", "", none, some "p", 0, 2, true⟩,
         ⟨"x", "", "", none, some "p", 0, 2, true⟩] := by
  refine ⟨⟨by decide, by decide, by decide⟩, by decide⟩

/-- C8 (amended): batch processing is a deterministic function of the
batch order and initial state, and conflict among same-id entries is
resolved by strict newer-wins against the current stored row, not by
batch position: a later entry whose `updated_at` is at most an earlier
same-id entry's changes nothing (the proviso `is_deleted` implication
excludes only the resurrection corner where the earlier entry was a
no-op tombstone for an unknown id and the later entry could create the
row).  Order-independence for distinct ids fails in general (see the
counterexample's shared-audio-path conjunct). -/
theorem C8_strict_newer_wins_in_batch (uid : String) (t : Time) (st : DB)
    (c1 c2 : NoteSyncItem) (fl : List FolderRec) (g1 g2 : FolderSyncItem)
    (hid : c1.id = c2.id) (hle : c2.updated_at ≤ c1.updated_at)
    (hdel : c1.is_deleted = true → c2.is_deleted = true)
    (hidf : g1.id = g2.id) (hlef : g2.updated_at ≤ g1.updated_at)
    (hdelf : g1.is_deleted = true → g2.is_deleted = true) :
    applyNotes uid t st [c1, c2] = applyNotes uid t st [c1] ∧
      applyFolders uid t fl [g1, g2] = applyFolders uid t fl [g1] := by
  constructor
  · have hset : noteSettled uid c2 ((noteStep uid t st c1).1) := by
      unfold noteSettled
      rw [← hid]
      cases hex : findNote st.notes uid c1.id with
      | some ex =>
          by_cases hlt : ex.updated_at < c1.updated_at
          · rw [findNote_after_overwrite uid t st c1 ex hex hlt]
            exact le_of_le_of_eq hle ((noteAfterOverwrite_key t c1 ex st.files).2.2).symm
          · rw [noteStep_not_newer uid t st c1 ex hex (Nat.not_lt.mp hlt), hex]
            exact le_trans hle (Nat.not_lt.mp hlt)
      | none =>
          by_cases hd : c1.is_deleted = true
          · rw [noteStep_unknown_deleted uid t st c1 hex hd, hex]
            exact hdel hd
          · have hd' : c1.is_deleted = false := by simpa using hd
            rw [findNote_after_create uid t st c1 hex hd']
            exact hle
    have h2 : applyNotes uid t st [c1, c2] =
        (noteStep uid t ((noteStep uid t st c1).1) c2).1 := rfl
    rw [h2, noteStep_of_settled uid t _ c2 hset]
    rfl
  · have hset : folderSettled uid g2 (folderStep uid t fl g1) := by
      unfold folderSettled
      rw [← hidf]
      cases hex : findFolder fl uid g1.id with
      | some ex =>
          by_cases hlt : ex.updated_at < g1.updated_at
          · rw [findFolder_after_overwrite uid t fl g1 ex hex hlt]
            exact hlef
          · rw [folderStep_not_newer uid t fl g1 ex hex (Nat.not_lt.mp hlt), hex]
            exact le_trans hlef (Nat.not_lt.mp hlt)
      | none =>
          by_cases hd : g1.is_deleted = true
          · rw [folderStep_unknown_deleted uid t fl g1 hex hd, hex]
            exact hdelf hd
          · have hd' : g1.is_deleted = false := by simpa using hd
            rw [findFolder_after_create uid t fl g1 hex hd']
            exact hlef
    have h2 : applyFolders uid t fl [g1, g2] =
        folderStep uid t (folderStep uid t fl g1) g2 := rfl
    rw [h2, folderStep_of_settled uid t _ g2 hset]
    rfl

theorem C8_strict_newer_wins_in_batch_witness :
    applyNotes "u" 1 ⟨[], [], []⟩
        [⟨"x", "A", "a", none, none, 0, 5, false⟩,
         ⟨"x", "B", "b", none, none, 0, 3, false⟩] =
      applyNotes "u" 1 ⟨[], [], []⟩ [⟨"x", "A", "a", none, none, 0, 5, false⟩] ∧
    applyFolders "u" 1 []
        [⟨"f", "N1", "#111111", 5, false⟩, ⟨"f", "N2", "#222222", 3, false⟩] =
      applyFolders "u" 1 [] [⟨"f", "N1", "#111111", 5, false⟩] :=
  C8_strict_newer_wins_in_batch "u" 1 ⟨[], [], []⟩
    ⟨"x", "A", "a", none, none, 0, 5, false⟩
    ⟨"x", "B", "b", none, none, 0, 3, false⟩ []
    ⟨"f", "N1", "#111111", 5, false⟩ ⟨"f", "N2", "#222222", 3, false⟩
    (by decide) (by decide) (by decide) (by decide) (by decide) (by decide)

/-- C9: owner scoping is a noninterference property.  First conjunct:
a sync pass for owner `uid` leaves every other owner's stored notes and
folders exactly as they were (writes are confined to `uid`'s rows).
Second conjunct: the note and folder deltas a sync call returns are a
function of the owner's own rows (and the file system) only — two server
states that agree on `uid`'s rows yield identical deltas, whatever the
other owners' rows are. -/
theorem C9_owner_noninterference :
    (∀ (uid : String) (t : Time) (req : SyncRequest) (st : DB),
      (syncPassState uid t req st).notes.filter (fun n => !(n.user_id == uid)) =
          st.notes.filter (fun n => !(n.user_id == uid)) ∧
        (syncPassState uid t req st).folders.filter
            (fun f => !(f.user_id == uid)) =
          st.folders.filter (fun f => !(f.user_id == uid))) ∧
    ∀ (uid : String) (t : Time) (nb : List NoteSyncItem)
      (fb : List FolderSyncItem) (cp : Option Time) (st1 st2 : DB)
      (fl1 fl2 : List FolderRec),
      st1.notes.filter (fun n => n.user_id == uid) =
        st2.notes.filter (fun n => n.user_id == uid) →
      st1.files = st2.files →
      fl1.filter (fun f => f.user_id == uid) =
        fl2.filter (fun f => f.user_id == uid) →
      (sync_notes uid t nb cp st1).2.2 = (sync_notes uid t nb cp st2).2.2 ∧
        (sync_folders uid t fb cp fl1).2 = (sync_folders uid t fb cp fl2).2 := by
  constructor
  · intro uid t req st
    constructor
    · show (applyNotes uid t st req.notes).notes.filter
          (fun n => !(n.user_id == uid)) = _
      exact applyNotes_other_users uid t req.notes st
    · show (applyFolders uid t (applyNotes uid t st req.notes).folders
          req.folders).filter (fun f => !(f.user_id == uid)) = _
      rw [applyFolders_other_users uid t req.folders _,
        applyNotes_folders_unchanged uid t req.notes st]
  · intro uid t nb fb cp st1 st2 fl1 fl2 hn hfiles hfl
    constructor
    · have h := applyNotes_congr_owned uid t nb st1 st2 hn hfiles
      show notesDelta uid cp (applyNotes uid t st1 nb) =
        notesDelta uid cp (applyNotes uid t st2 nb)
      unfold notesDelta
      rw [h.1]
    · have h := applyFolders_congr_owned uid t fb fl1 fl2 hfl
      show foldersDelta uid cp (applyFolders uid t fl1 fb) =
        foldersDelta uid cp (applyFolders uid t fl2 fb)
      unfold foldersDelta
      rw [h]

theorem C9_owner_noninterference_witness :
    ((syncPassState "u" 1
          ⟨[⟨"x", "A", "a", none, none, 0, 5, false⟩],
            [⟨"f", "Trip", "#E8B731", 3, false⟩], none⟩
          ⟨[⟨"w", "v", none, "W", "", none, 0, 0, 9, none, false⟩],
            [⟨"g", "v", "G", "#000000", 0, 9, false⟩], []⟩).notes.filter
          (fun n => !(n.user_id == "u")) =
        (DB.mk [⟨"w", "v", none, "W", "", none, 0, 0, 9, none, false⟩]
            [⟨"g", "v", "G", "#000000", 0, 9, false⟩] []).notes.filter
          (fun n => !(n.user_id == "u")) ∧
      (syncPassState "u" 1
          ⟨[⟨"x", "A", "a", none, none, 0, 5, false⟩],
            [⟨"f", "Trip", "#E8B731", 3, false⟩], none⟩
          ⟨[⟨"w", "v", none, "W", "", none, 0, 0, 9, none, false⟩],
            [⟨"g", "v", "G", "#000000", 0, 9, false⟩], []⟩).folders.filter
          (fun f => !(f.user_id == "u")) =
        (DB.mk [⟨"w", "v", none, "W", "", none, 0, 0, 9, none, false⟩]
            [⟨"g", "v", "G", "#000000", 0, 9, false⟩] []).folders.filter
          (fun f => !(f.user_id == "u"))) ∧
    (sync_notes "u" 1 [⟨"x", "A", "a", none, none, 0, 5, false⟩] none
        ⟨[⟨"k", "u", none, "K", "", none, 0, 0, 1, none, false⟩,
          ⟨"w", "v", none, "W", "", none, 0, 0, 9, none, false⟩], [], []⟩).2.2 =
      (sync_notes "u" 1 [⟨"x", "A", "a", none, none, 0, 5, false⟩] none
        ⟨[⟨"k", "u", none, "K", "", none, 0, 0, 1, none, false⟩], [], []⟩).2.2 ∧
    (sync_folders "u" 1 [⟨"f", "Trip", "#E8B731", 3, false⟩] none
        [⟨"h", "u", "H", "#111111", 0, 1, false⟩,
         ⟨"g", "v", "G", "#000000", 0, 9, false⟩]).2 =
      (sync_folders "u" 1 [⟨"f", "Trip", "#E8B731", 3, false⟩] none
        [⟨"h", "u", "H", "#111111", 0, 1, false⟩]).2 :=
  ⟨(C9_owner_noninterference).1 "u" 1
      ⟨[⟨"x", "A", "a", none, none, 0, 5, false⟩],
        [⟨"f", "Trip", "#E8B731", 3, false⟩], none⟩
      ⟨[⟨"w", "v", none, "W", "", none, 0, 0, 9, none, false⟩],
        [⟨"g", "v", "G", "#000000", 0, 9, false⟩], []⟩,
    (C9_owner_noninterference).2 "u" 1
      [⟨"x", "A", "a", none, none, 0, 5, false⟩]
      [⟨"f", "Trip", "#E8B731", 3, false⟩] none
      ⟨[⟨"k", "u", none, "K", "", none, 0, 0, 1, none, false⟩,
        ⟨"w", "v", none, "W", "", none, 0, 0, 9, none, false⟩], [], []⟩
      ⟨[⟨"k", "u", none, "K", "", none, 0, 0, 1, none, false⟩], [], []⟩
      [⟨"h", "u", "H", "#111111", 0, 1, false⟩,
       ⟨"g", "v", "G", "#000000", 0, 9, false⟩]
      [⟨"h", "u", "H", "#111111", 0, 1, false⟩]
      (by decide) (by decide) (by decide)⟩
